import Mathlib

/-!
# RaterSaveAnswer: the live reconciliation handler of `static/main.js`

A shallow embedding of the `value` callback registered by `startLiveSync`
(main.js 25-81) and of `saveNote` (main.js 102-111), followed by the properties
the specification states about them.

Modelling decisions, each read off the source:

* A snapshot is the value `snapshot.val()` returns, shaped as the store contract
  says: `versionId ↦ Version`, `Version.rating_results : resultIndex ↦ Result`,
  and so on.  Every level that the source tests for falsiness is an `Option`
  (`none` is JavaScript `null` / `undefined`).  A JavaScript object is the list
  of its own entries in enumeration order, which is the order `Object.entries`
  and `Object.keys` visit them in.
* The document is a map from element ids to elements, which is all that
  `document.getElementById` can observe.  An element carries its `innerText`,
  its `innerHTML` and its `classList` (a set of class names).
* A `TypeError` raised by a property read on `null` aborts the callback; the
  mutations performed before it stay in the document.
* The property read `res.voters[userSanitizedKey]` looks among the own entries of
  `voters` first and then at the names inherited from `Object.prototype`.
* A vote count is an integer below `2 ^ 53`, which a JavaScript number holds exactly
  and prints as its decimal numeral.
* `String.prototype.toLowerCase` is a built-in of the runtime; the handler takes it
  as a parameter.
-/

namespace RaterSaveAnswer

/-! ## Snapshot data -/

/-- The `text` field of a note as a template literal sees it: absent, `null`, or a
string. -/
inductive NoteText where
  | absent
  | null
  | str (s : String)
deriving DecidableEq

/-- One note: `{user, text}`; either field may be absent.  For `user` only its truthiness
matters (main.js 67), so `none` stands for an absent and for a `null` user alike. -/
structure Note where
  user : Option String
  text : NoteText
deriving DecidableEq

/-- A vote count: a non-negative integer that a JavaScript number holds exactly (below
`2 ^ 53`), for which the text assigned to `innerText` is its decimal numeral. -/
abbrev Count := Fin (2 ^ 53)

/-- One result: `{upvotes, downvotes, voters, notes}`; any field may be absent and
any note entry may be `null`. -/
structure Result where
  upvotes : Option Count
  downvotes : Option Count
  voters : Option (List (String × String))
  notes : Option (List (String × Option Note))
deriving DecidableEq

/-- One version: `{rating_results}`; the field may be absent and any result entry
may be `null`. -/
structure Version where
  rating_results : Option (List (String × Option Result))
deriving DecidableEq

/-- What `snapshot.val()` yields for `tasks/{taskId}`: `null`, or the version entries,
any of which may be `null`. -/
abbrev Snapshot := Option (List (String × Option Version))

/-- The two module-level variables `currentUserEmail` and `userSanitizedKey`
(main.js 1-2), set once by `initApp` (main.js 5-6). -/
structure Identity where
  currentUserEmail : String
  userSanitizedKey : String
deriving DecidableEq

/-! ## Document -/

/-- A render target: the three properties the handler writes. -/
structure Element where
  innerText : String
  innerHTML : String
  classList : Finset String
deriving DecidableEq

/-- The document, as `document.getElementById` sees it. -/
abbrev Document := String → Option Element

/-- The call `document.getElementById(id)`. -/
def getElementById (doc : Document) (id : String) : Option Element := doc id

/-- Mutate the element with the given id in place (nothing happens when there is none). -/
def Document.modify (doc : Document) (id : String) (f : Element → Element) : Document :=
  fun j => if j = id then (doc j).map f else doc j

/-- The assignment `el.innerText = s`. -/
def Element.setInnerText (s : String) (e : Element) : Element := { e with innerText := s }

/-- The assignment `el.innerHTML = s`. -/
def Element.setInnerHTML (s : String) (e : Element) : Element := { e with innerHTML := s }

/-- The call `el.classList.add(c)`. -/
def Element.classAdd (c : String) (e : Element) : Element :=
  { e with classList := insert c e.classList }

/-- The call `el.classList.remove(c)`. -/
def Element.classRemove (c : String) (e : Element) : Element :=
  { e with classList := e.classList.erase c }

/-- The call `el.classList.toggle(c, force)`: with a second argument the class is added when it is
true and removed when it is false. -/
def Element.classToggle (c : String) (force : Bool) (e : Element) : Element :=
  if force then e.classAdd c else e.classRemove c

/-! ## JavaScript string helpers -/

/-- The built-in `String.prototype.toLowerCase` (main.js 69).  It belongs to the JavaScript
runtime, not to the repository, so the handler takes it as given: `toLowerCase s` is the value
of `s.toLowerCase()`. -/
structure Builtins where
  toLowerCase : String → String

/-- Lower-casing of the ASCII letters `A`-`Z`: the value of `s.toLowerCase()` for an ASCII
string `s`.  It serves the concrete inputs below, whose strings are all ASCII. -/
def asciiLowerCase (s : String) : String := String.mk (s.data.map Char.toLower)

/-- The runtime as ASCII strings see it, for the concrete inputs below. -/
def asciiBuiltins : Builtins := ⟨asciiLowerCase⟩

/-- The value of `s.split(c)[0]`: the part of `s` before the first `c`, all of `s` when
there is none. -/
def splitHead (c : Char) (s : String) : String := String.mk (s.data.takeWhile (fun x => x != c))

/-- Truthiness of a string: every string but the empty one. -/
def truthyStr (s : String) : Bool := s != ""

/-- The value of `x || dflt` for a string-valued `x` that may be absent: the default replaces an absent
and an empty value. -/
def orDefault (x : Option String) (dflt : String) : String :=
  match x with
  | some s => if truthyStr s then s else dflt
  | none => dflt

/-- The text `${note.text}` prints (main.js 73): an absent field prints as `undefined`, a
`null` one as `null`. -/
def interpolate : NoteText → String
  | NoteText.absent => "undefined"
  | NoteText.null => "null"
  | NoteText.str s => s

/-- The value of `x || 0` for a count `x` that may be absent (main.js 43, 44, 56). -/
def countOr0 (x : Option Count) : Nat :=
  match x with
  | some n => n.val
  | none => 0

/-! ## The note list (main.js 62-77) -/

/-- The value of `note.user || "unknown@user"` (main.js 67). -/
def safeUserOf (note : Note) : String := orDefault note.user "unknown@user"

/-- The `isMe` flag (main.js 69): `safeUser.toLowerCase() === currentUserEmail`. -/
def isMe (js : Builtins) (me : Identity) (note : Note) : Bool :=
  js.toLowerCase (safeUserOf note) == me.currentUserEmail

/-- The delete affordance of an own note (main.js 74). -/
def delNoteBtn (taskId verId idx nid : String) : String :=
  "<span class=\"del-note-btn\" onclick=\"deleteNote(\x27" ++ taskId ++ "\x27,\x27" ++ verId
    ++ "\x27," ++ idx ++ ",\x27" ++ nid ++ "\x27)\" title=\"Delete\">×</span>"

/-- The last line of the template literal of main.js 71-75: the closing tag of the item. -/
def itemClose : String := "\n                                    </div>"

/-- The template literal of main.js 71-75 with its three holes. -/
def noteItemTemplate (username text del : String) : String :=
  "\n                                    <div class=\"note-item\">"
    ++ "\n                                        <div><span class=\"note-user\">" ++ username
    ++ ":</span> <span>" ++ text ++ "</span></div>"
    ++ "\n                                        " ++ del
    ++ itemClose

/-- The HTML appended for one non-null note (main.js 67-75). -/
def noteItem (js : Builtins) (me : Identity) (taskId verId idx nid : String) (note : Note) : String :=
  let safeUser := safeUserOf note
  let username := splitHead '@' safeUser
  noteItemTemplate username (interpolate note.text)
    (if isMe js me note then delNoteBtn taskId verId idx nid else "")

/-- The loop of main.js 64-76: `newHtml` grows by one item per non-null note. -/
def notesLoop (js : Builtins) (me : Identity) (taskId verId idx : String)
    (notes : List (String × Option Note)) (newHtml : String) : String :=
  notes.foldl
    (fun acc entry =>
      match entry.2 with
      | none => acc
      | some note => acc ++ noteItem js me taskId verId idx entry.1 note)
    newHtml

/-- The value of `newHtml` at main.js 78. -/
def notesHtml (js : Builtins) (me : Identity) (taskId verId idx : String) (res : Result) : String :=
  match res.notes with
  | none => ""
  | some notes => notesLoop js me taskId verId idx notes ""

/-! ## The per-result body (main.js 33-79) -/

/-- Id of the up-count target. -/
def upId (verId idx : String) : String := "up-" ++ verId ++ "-" ++ idx
/-- Id of the down-count target. -/
def downId (verId idx : String) : String := "down-" ++ verId ++ "-" ++ idx
/-- Id of the up-vote button. -/
def btnUpId (verId idx : String) : String := "btn-up-" ++ verId ++ "-" ++ idx
/-- Id of the down-vote button. -/
def btnDownId (verId idx : String) : String := "btn-down-" ++ verId ++ "-" ++ idx
/-- Id of the result container. -/
def resId (verId idx : String) : String := "res-" ++ verId ++ "-" ++ idx
/-- Id of the notes section. -/
def notesId (verId idx : String) : String := "notes-" ++ verId ++ "-" ++ idx

/-- The property names every object inherits from `Object.prototype`. -/
def objectPrototypeNames : List String :=
  ["constructor", "hasOwnProperty", "isPrototypeOf", "propertyIsEnumerable", "toLocaleString",
   "toString", "valueOf", "__proto__", "__defineGetter__", "__defineSetter__",
   "__lookupGetter__", "__lookupSetter__"]

/-- What `res.voters && res.voters[userSanitizedKey]` evaluates to: a falsy value when there
is nothing to read, the string stored under the key, or a member of `Object.prototype` (a
function or an object, hence truthy and different from `'up'`) when the key is not an own
one but names an inherited property. -/
inductive VoterRead where
  | undefined
  | str (dir : String)
  | inherited
deriving DecidableEq

/-- The value of `res.voters && res.voters[userSanitizedKey]` (main.js 49): own entries
first, then the prototype chain. -/
def myVote (me : Identity) (res : Result) : VoterRead :=
  match res.voters with
  | none => VoterRead.undefined
  | some voters =>
    match voters.lookup me.userSanitizedKey with
    | some dir => VoterRead.str dir
    | none =>
      if me.userSanitizedKey ∈ objectPrototypeNames then VoterRead.inherited
      else VoterRead.undefined

/-- Whether the value read for the current user sets the down highlight (main.js 49-51): it
does when the value is truthy and is not `'up'`. -/
def VoterRead.addsDown : VoterRead → Bool
  | VoterRead.undefined => false
  | VoterRead.str dir => truthyStr dir && dir != "up"
  | VoterRead.inherited => true

/-- The test `(res.downvotes || 0) > (res.upvotes || 0)` (main.js 56). -/
def cautioned (res : Result) : Bool :=
  decide (countOr0 res.downvotes > countOr0 res.upvotes)

/-- The highlight block, main.js 47-52, run when both buttons exist. -/
def highlight (me : Identity) (verId idx : String) (res : Result) (doc : Document) : Document :=
  let doc := doc.modify (btnUpId verId idx) (Element.classRemove "vote-active-up")
  let doc := doc.modify (btnDownId verId idx) (Element.classRemove "vote-active-down")
  match myVote me res with
  | VoterRead.undefined => doc
  | VoterRead.str dir =>
    if truthyStr dir then
      if dir = "up" then doc.modify (btnUpId verId idx) (Element.classAdd "vote-active-up")
      else doc.modify (btnDownId verId idx) (Element.classAdd "vote-active-down")
    else doc
  | VoterRead.inherited =>
    doc.modify (btnDownId verId idx) (Element.classAdd "vote-active-down")

/-- The body of the inner `forEach` for a non-null result (main.js 37-79). -/
def applyResult (js : Builtins) (me : Identity) (taskId verId idx : String) (res : Result)
    (doc : Document) : Document :=
  let upCount := getElementById doc (upId verId idx)
  let downCount := getElementById doc (downId verId idx)
  let btnUp := getElementById doc (btnUpId verId idx)
  let btnDown := getElementById doc (btnDownId verId idx)
  let resContainer := getElementById doc (resId verId idx)
  let doc := if upCount.isSome then
      doc.modify (upId verId idx) (Element.setInnerText (toString (countOr0 res.upvotes)))
    else doc
  let doc := if downCount.isSome then
      doc.modify (downId verId idx) (Element.setInnerText (toString (countOr0 res.downvotes)))
    else doc
  let doc := if btnUp.isSome && btnDown.isSome then highlight me verId idx res doc else doc
  let doc := if resContainer.isSome then
      doc.modify (resId verId idx) (Element.classToggle "res-caution" (cautioned res))
    else doc
  let notesSection := getElementById doc (notesId verId idx)
  if notesSection.isSome then
    doc.modify (notesId verId idx) (Element.setInnerHTML (notesHtml js me taskId verId idx res))
  else doc

/-! ## The value callback (main.js 25-81) -/

/-- The only fault the callback can raise on store-shaped data: a property read on `null`. -/
inductive JsError where
  | typeError
deriving DecidableEq

/-- How a run of the callback ends: the document it leaves, and the error it raised, if any. -/
structure Outcome where
  doc : Document
  raised : Option JsError

/-- The inner `forEach` (main.js 32-80).  `Object.keys(resultsObj)` followed by
`resultsObj[idx]` visits the own entries of the object, in order; `null` results are skipped
(main.js 34). -/
def forEachResult (js : Builtins) (me : Identity) (taskId verId : String)
    (resultsObj : List (String × Option Result)) (doc : Document) : Document :=
  resultsObj.foldl
    (fun d entry =>
      match entry.2 with
      | none => d
      | some res => applyResult js me taskId verId entry.1 res d)
    doc

/-- The outer `forEach` (main.js 29-81).  `verData.rating_results` (main.js 30) is read
with no test on `verData`: on a `null` version it raises and the callback stops. -/
def forEachVersion (js : Builtins) (me : Identity) (taskId : String) :
    List (String × Option Version) → Document → Outcome
  | [], doc => ⟨doc, none⟩
  | (_, none) :: _, doc => ⟨doc, some JsError.typeError⟩
  | (verId, some verData) :: rest, doc =>
    forEachVersion js me taskId rest
      (forEachResult js me taskId verId (verData.rating_results.getD []) doc)

/-- The value callback of `startLiveSync` for one task (main.js 25-81). -/
def onValue (js : Builtins) (me : Identity) (taskId : String) (snapshot : Snapshot) (doc : Document) : Outcome :=
  match snapshot with
  | none => ⟨doc, none⟩
  | some versions => forEachVersion js me taskId versions doc

/-- The callback run on the snapshots of one task in arrival order. -/
def onValues (js : Builtins) (me : Identity) (taskId : String) (snapshots : List Snapshot)
    (doc : Document) : Document :=
  snapshots.foldl (fun d s => (onValue js me taskId s d).doc) doc

/-! ## Writes

Every mutation the callback performs stores a value into one entry of one element: its text,
its HTML, or the presence of one class.  A run of the callback is therefore a list of such
writes, and the entry a run leaves in an element is the value of the last write to it. -/

/-- An entry of an element's view state. -/
inductive Entry where
  | text
  | html
  | cls (c : String)
deriving DecidableEq

/-- The value of an entry. -/
inductive Val where
  | str (s : String)
  | flag (b : Bool)
deriving DecidableEq

/-- Read one entry of an element. -/
def Element.entry (e : Element) : Entry → Val
  | Entry.text => Val.str e.innerText
  | Entry.html => Val.str e.innerHTML
  | Entry.cls c => Val.flag (decide (c ∈ e.classList))

/-- Read one entry of the element with id `t`, when there is one. -/
def Document.entry (doc : Document) (t : String) (o : Entry) : Option Val :=
  (doc t).map (fun e => e.entry o)

/-- The four element mutations the callback uses. -/
inductive Prim where
  | setText (s : String)
  | setHtml (s : String)
  | addClass (c : String)
  | removeClass (c : String)
deriving DecidableEq

/-- The mutation a primitive stands for. -/
def Prim.run : Prim → Element → Element
  | Prim.setText s => Element.setInnerText s
  | Prim.setHtml s => Element.setInnerHTML s
  | Prim.addClass c => Element.classAdd c
  | Prim.removeClass c => Element.classRemove c

/-- The entry a primitive stores into. -/
def Prim.target : Prim → Entry
  | Prim.setText _ => Entry.text
  | Prim.setHtml _ => Entry.html
  | Prim.addClass c => Entry.cls c
  | Prim.removeClass c => Entry.cls c

/-- The value a primitive stores. -/
def Prim.value : Prim → Val
  | Prim.setText s => Val.str s
  | Prim.setHtml s => Val.str s
  | Prim.addClass _ => Val.flag true
  | Prim.removeClass _ => Val.flag false

/-- One write: a primitive applied to the element with the given id. -/
structure Write where
  id : String
  op : Prim
deriving DecidableEq

/-- Perform a list of writes, first to last. -/
def runWrites (ws : List Write) (doc : Document) : Document :=
  ws.foldl (fun d w => d.modify w.id w.op.run) doc

/-- The value stored by the last write of `ws` into entry `o` of element `t`. -/
def lastWrite (t : String) (o : Entry) : List Write → Option Val
  | [] => none
  | w :: ws =>
    match lastWrite t o ws with
    | some v => some v
    | none => if w.id = t ∧ w.op.target = o then some w.op.value else none

/-- Which ids have an element: all that a guard such as `if (upCount)` looks at. -/
def present (doc : Document) : String → Bool := fun t => (doc t).isSome

/-- The writes of the highlight block (main.js 47-52). -/
def highlightWrites (me : Identity) (verId idx : String) (res : Result) : List Write :=
  [⟨btnUpId verId idx, Prim.removeClass "vote-active-up"⟩,
   ⟨btnDownId verId idx, Prim.removeClass "vote-active-down"⟩]
  ++ (match myVote me res with
      | VoterRead.undefined => []
      | VoterRead.str dir =>
        if truthyStr dir then
          if dir = "up" then [⟨btnUpId verId idx, Prim.addClass "vote-active-up"⟩]
          else [⟨btnDownId verId idx, Prim.addClass "vote-active-down"⟩]
        else []
      | VoterRead.inherited => [⟨btnDownId verId idx, Prim.addClass "vote-active-down"⟩])

/-- The writes of the per-result body, given which elements exist. -/
def resultWrites (p : String → Bool) (js : Builtins) (me : Identity) (taskId verId idx : String)
    (res : Result) : List Write :=
  [⟨upId verId idx, Prim.setText (toString (countOr0 res.upvotes))⟩,
   ⟨downId verId idx, Prim.setText (toString (countOr0 res.downvotes))⟩]
  ++ (if p (btnUpId verId idx) && p (btnDownId verId idx) then highlightWrites me verId idx res
      else [])
  ++ [⟨resId verId idx,
        if cautioned res then Prim.addClass "res-caution" else Prim.removeClass "res-caution"⟩,
      ⟨notesId verId idx, Prim.setHtml (notesHtml js me taskId verId idx res)⟩]

/-- The writes of the inner `forEach`. -/
def resultsWrites (p : String → Bool) (js : Builtins) (me : Identity) (taskId verId : String) :
    List (String × Option Result) → List Write
  | [] => []
  | (_, none) :: rest => resultsWrites p js me taskId verId rest
  | (idx, some res) :: rest =>
    resultWrites p js me taskId verId idx res ++ resultsWrites p js me taskId verId rest

/-- The writes of the outer `forEach`, up to the first `null` version. -/
def versionsWrites (p : String → Bool) (js : Builtins) (me : Identity) (taskId : String) :
    List (String × Option Version) → List Write
  | [] => []
  | (_, none) :: _ => []
  | (verId, some verData) :: rest =>
    resultsWrites p js me taskId verId (verData.rating_results.getD [])
      ++ versionsWrites p js me taskId rest

/-- The writes of one run of the callback. -/
def snapshotWrites (p : String → Bool) (js : Builtins) (me : Identity) (taskId : String) :
    Snapshot → List Write
  | none => []
  | some versions => versionsWrites p js me taskId versions

/-- The entries the per-result body stores into for `(verId, idx)`, given which elements
exist. -/
def resultTargets (p : String → Bool) (verId idx : String) : List (String × Entry) :=
  [(upId verId idx, Entry.text), (downId verId idx, Entry.text)]
  ++ (if p (btnUpId verId idx) && p (btnDownId verId idx) then
        [(btnUpId verId idx, Entry.cls "vote-active-up"),
         (btnDownId verId idx, Entry.cls "vote-active-down")]
      else [])
  ++ [(resId verId idx, Entry.cls "res-caution"), (notesId verId idx, Entry.html)]

/-- The `(versionId, resultIndex)` pairs of the non-null results of one version. -/
def resultKeys (verId : String) (resultsObj : List (String × Option Result)) :
    List (String × String) :=
  resultsObj.filterMap (fun entry => entry.2.map (fun _ => (verId, entry.1)))

/-- The `(versionId, resultIndex)` pairs whose targets a run over these versions updates:
the non-null results of the versions before the first `null` version. -/
def versionKeys : List (String × Option Version) → List (String × String)
  | [] => []
  | (_, none) :: _ => []
  | (verId, some verData) :: rest =>
    resultKeys verId (verData.rating_results.getD []) ++ versionKeys rest

/-- The `(versionId, resultIndex)` pairs whose targets a run on the snapshot updates. -/
def updatedKeys : Snapshot → List (String × String)
  | none => []
  | some versions => versionKeys versions

/-- The part of a render target id that follows its kind: `{verId}-{idx}`. -/
def targetKey (k : String × String) : String := k.1 ++ "-" ++ k.2

/-! ## Concrete inputs -/

/-- A render target with no text, no HTML and no class. -/
def emptyElement : Element := ⟨"", "", ∅⟩

/-- A document holding the six render targets of result `0` of version `v1`. -/
def scenarioDocument : Document := fun id =>
  if id ∈ ["up-v1-0", "down-v1-0", "btn-up-v1-0", "btn-down-v1-0", "res-v1-0", "notes-v1-0"]
  then some emptyElement else none

/-- The current user of the specification's scenario. -/
def scenarioIdentity : Identity := ⟨"a@x.com", "u1"⟩

/-- The snapshot of the specification's scenario:
`{v1: {rating_results: {0: {upvotes: 5, downvotes: 2, voters: {u1: "up"},
notes: {n1: {user: "a@x.com", text: "hi"}}}}}}`. -/
def scenarioSnapshot : Snapshot :=
  some [("v1", some ⟨some [("0", some ⟨some 5, some 2, some [("u1", "up")],
    some [("n1", some ⟨some "a@x.com", NoteText.str "hi"⟩)]⟩)]⟩)]

/-- A snapshot `{v1: {rating_results: {[idx]: {upvotes: n}}}}`. -/
def countSnapshot (verId idx : String) (n : Count) : Snapshot :=
  some [(verId, some ⟨some [(idx, some ⟨some n, none, none, none⟩)]⟩)]



/-! ## Observations -/

/-- The text shown by the element with the given id, when there is one. -/
def textOf (doc : Document) (id : String) : Option String := (doc id).map Element.innerText

/-- The HTML of the element with the given id, when there is one. -/
def htmlOf (doc : Document) (id : String) : Option String := (doc id).map Element.innerHTML

/-- Whether the element with the given id, when there is one, carries class `c`. -/
def hasClass (doc : Document) (id c : String) : Option Bool :=
  (doc id).map (fun e => decide (c ∈ e.classList))

/-- The non-null results of one version, each with its address. -/
def versionResults (verId : String) (resultsObj : List (String × Option Result)) :
    List (String × String × Result) :=
  resultsObj.filterMap (fun entry => entry.2.map (fun res => (verId, entry.1, res)))

/-- The results the outer `forEach` reaches: the non-null results of the versions before
the first `null` version. -/
def reachedVersions : List (String × Option Version) → List (String × String × Result)
  | [] => []
  | (_, none) :: _ => []
  | (verId, some verData) :: rest =>
    versionResults verId (verData.rating_results.getD []) ++ reachedVersions rest

/-- The results `(versionId, resultIndex, Result)` a run of the callback reaches, in order. -/
def reachedResults : Snapshot → List (String × String × Result)
  | none => []
  | some versions => reachedVersions versions



/-- The result of the specification's scenario. -/
def scenarioResult : Result :=
  ⟨some 5, some 2, some [("u1", "up")], some [("n1", some ⟨some "a@x.com", NoteText.str "hi"⟩)]⟩

/-- A result `{upvotes: up, downvotes: down}`. -/
def votesResult (up down : Count) : Result := ⟨some up, some down, none, none⟩



/-! ## Snapshots without their `null` entries -/

/-- The note entries that are not `null`. -/
def stripNotes (notes : List (String × Option Note)) : List (String × Option Note) :=
  notes.filter (fun entry => entry.2.isSome)

/-- A result without its `null` note entries. -/
def stripResult (res : Result) : Result :=
  { res with notes := res.notes.map stripNotes }

/-- The result entries that are not `null`, each without its `null` note entries. -/
def stripResults (resultsObj : List (String × Option Result)) :
    List (String × Option Result) :=
  (resultsObj.filter (fun entry => entry.2.isSome)).map
    (fun entry => (entry.1, entry.2.map stripResult))

/-- A version without its `null` result entries and their `null` note entries. -/
def stripVersion (verData : Version) : Version :=
  ⟨verData.rating_results.map stripResults⟩

/-- A snapshot with every `null` note entry and every `null` result entry removed. -/
def stripNulls (snapshot : Snapshot) : Snapshot :=
  snapshot.map (fun versions => versions.map (fun entry => (entry.1, entry.2.map stripVersion)))

/-- The items of the non-null notes of a result, in entry order. -/
def noteItems (js : Builtins) (me : Identity) (taskId verId idx : String) (res : Result) : List String :=
  (res.notes.getD []).filterMap
    (fun entry => entry.2.map (noteItem js me taskId verId idx entry.1))

/-! ## `saveNote` (main.js 102-111) -/

/-- A primitive value passed to a command: a string or a number. -/
inductive JsArg where
  | str (s : String)
  | num (n : Nat)
deriving DecidableEq

/-- How a primitive value prints inside a template literal. -/
def JsArg.toJsString : JsArg → String
  | JsArg.str s => s
  | JsArg.num n => toString n

/-- A `fetch` call: the url, the method, the headers, and the fields of the object given to
`JSON.stringify`, in source order. -/
structure FetchRequest where
  url : String
  method : String
  headers : List (String × String)
  body : List (String × JsArg)
deriving DecidableEq

/-- What `saveNote` reads and writes: the values of the input fields by id, and the `fetch`
calls issued so far. -/
structure Page where
  inputs : String → Option String
  requests : List FetchRequest

/-- How a run of `saveNote` ends. -/
structure SaveOutcome where
  page : Page
  raised : Option JsError

/-- The code points `String.prototype.trim` strips: white space and line terminators. -/
def isTrimmed (c : Char) : Bool :=
  c.toNat ∈ [0x09, 0x0A, 0x0B, 0x0C, 0x0D, 0x20, 0xA0, 0x1680, 0x2000, 0x2001, 0x2002, 0x2003,
    0x2004, 0x2005, 0x2006, 0x2007, 0x2008, 0x2009, 0x200A, 0x2028, 0x2029, 0x202F, 0x205F,
    0x3000, 0xFEFF]

/-- The call `s.trim()`. -/
def trim (s : String) : String :=
  String.mk (((s.data.dropWhile isTrimmed).reverse.dropWhile isTrimmed).reverse)

/-- Id of the note input of a result (main.js 103). -/
def txtNoteId (v i : JsArg) : String := "txt-note-" ++ v.toJsString ++ "-" ++ i.toJsString

/-- The request of main.js 109. -/
def addNoteRequest (me : Identity) (t v i : JsArg) (noteText : String) : FetchRequest :=
  { url := "/add_note"
    method := "POST"
    headers := [("Content-Type", "application/json")]
    body := [("task_id", t), ("ver_id", v), ("idx", i), ("note_text", JsArg.str noteText),
      ("user_email", JsArg.str me.currentUserEmail)] }

/-- The function `saveNote(t, v, i)` (main.js 102-111).  Reading `inp.value` raises when there is no such
input. -/
def saveNote (me : Identity) (t v i : JsArg) (page : Page) : SaveOutcome :=
  match page.inputs (txtNoteId v i) with
  | none => ⟨page, some JsError.typeError⟩
  | some value =>
    if truthyStr (trim value) then
      let noteText := value
      let inputs : String → Option String :=
        fun id => if id = txtNoteId v i then some "" else page.inputs id
      ⟨⟨inputs, page.requests ++ [addNoteRequest me t v i noteText]⟩, none⟩
    else ⟨page, none⟩

/-- A page whose only input is the note field of result `0` of `v1`, holding `value`. -/
def notePage (value : String) : Page :=
  ⟨fun id => if id = "txt-note-v1-0" then some value else none, []⟩

/-! ## Snapshots as the claims read them -/

/-- The non-null results of a snapshot, each with its address `(versionId, resultIndex)`:
those of every non-null version, in enumeration order. -/
def snapshotResults (snapshot : Snapshot) : List (String × String × Result) :=
  (snapshot.getD []).flatMap
    (fun entry =>
      match entry.2 with
      | none => []
      | some verData => versionResults entry.1 (verData.rating_results.getD []))

/-- A snapshot `{v0: null, v1: {rating_results: {0: res}}}`. -/
def nullFirstSnapshot (res : Result) : Snapshot :=
  some [("v0", none), ("v1", some ⟨some [("0", some res)]⟩)]

/-- A result `{upvotes: 1, downvotes: 5, voters: {u1: "up"}}`. -/
def firstSharedResult : Result := ⟨some 1, some 5, some [("u1", "up")], none⟩

/-- A result `{upvotes: 7, downvotes: 0, voters: {u1: "down"}}`. -/
def secondSharedResult : Result := ⟨some 7, some 0, some [("u1", "down")], none⟩

/-- A snapshot `{"v1": {rating_results: {"0-1": r₁}}, "v1-0": {rating_results: {"1": r₂}}}`:
its two results have different addresses and the same render targets, `…-v1-0-1`. -/
def sharedTargetSnapshot : Snapshot :=
  some [("v1", some ⟨some [("0-1", some firstSharedResult)]⟩),
        ("v1-0", some ⟨some [("1", some secondSharedResult)]⟩)]

/-- A document holding the six render targets with key `v1-0-1`. -/
def sharedTargetDocument : Document := fun id =>
  if id ∈ ["up-v1-0-1", "down-v1-0-1", "btn-up-v1-0-1", "btn-down-v1-0-1", "res-v1-0-1",
    "notes-v1-0-1"]
  then some emptyElement else none

/-- A current user whose sanitized key is the name of an inherited property. -/
def inheritedKeyIdentity : Identity := ⟨"a@x.com", "constructor"⟩

/-- A result `{voters: {}}`. -/
def noVotersResult : Result := ⟨none, none, some [], none⟩

/-- A snapshot `{v1: {rating_results: {0: {voters: {}}}}}`. -/
def noVotersSnapshot : Snapshot :=
  some [("v1", some ⟨some [("0", some noVotersResult)]⟩)]

/-! ## Elements and documents are determined by their entries -/

theorem element_ext_entry {e₁ e₂ : Element} (h : ∀ o, e₁.entry o = e₂.entry o) : e₁ = e₂ := by
  obtain ⟨t₁, h₁, c₁⟩ := e₁
  obtain ⟨t₂, h₂, c₂⟩ := e₂
  have ht := h Entry.text
  have hh := h Entry.html
  simp only [Element.entry, Val.str.injEq] at ht hh
  have hc : c₁ = c₂ := by
    ext c
    have := h (Entry.cls c)
    simpa [Element.entry] using this
  subst ht; subst hh; subst hc; rfl

theorem document_ext_entry {d₁ d₂ : Document} (h : ∀ t o, d₁.entry t o = d₂.entry t o) :
    d₁ = d₂ := by
  funext t
  have ht := h t
  unfold Document.entry at ht
  cases h₁ : d₁ t with
  | none =>
    cases h₂ : d₂ t with
    | none => rfl
    | some e₂ => have := ht Entry.text; simp [h₁, h₂] at this
  | some e₁ =>
    cases h₂ : d₂ t with
    | none => have := ht Entry.text; simp [h₁, h₂] at this
    | some e₂ =>
      congr 1
      apply element_ext_entry
      intro o
      have := ht o
      simpa [h₁, h₂] using this

theorem prim_entry_run (p : Prim) (e : Element) (o : Entry) :
    (p.run e).entry o = if p.target = o then p.value else e.entry o := by
  cases p <;> cases o <;>
    simp [Prim.run, Prim.target, Prim.value, Element.entry, Element.setInnerText,
      Element.setInnerHTML, Element.classAdd, Element.classRemove]
  all_goals
    rename_i c c'
    by_cases hc : c = c'
    · subst hc; simp
    · simp [hc, Ne.symm hc]

theorem present_modify (doc : Document) (id : String) (f : Element → Element) :
    present (doc.modify id f) = present doc := by
  funext t
  unfold present Document.modify
  by_cases h : t = id <;> simp [h]

theorem present_runWrites (ws : List Write) (doc : Document) :
    present (runWrites ws doc) = present doc := by
  induction ws generalizing doc with
  | nil => rfl
  | cons w ws ih =>
    show present (runWrites ws (doc.modify w.id w.op.run)) = present doc
    rw [ih, present_modify]

theorem runWrites_append (ws₁ ws₂ : List Write) (doc : Document) :
    runWrites (ws₁ ++ ws₂) doc = runWrites ws₂ (runWrites ws₁ doc) := by
  simp [runWrites, List.foldl_append]

theorem lastWrite_cons (t : String) (o : Entry) (w : Write) (ws : List Write) :
    lastWrite t o (w :: ws) =
      match lastWrite t o ws with
      | some v => some v
      | none => if w.id = t ∧ w.op.target = o then some w.op.value else none := rfl

theorem lastWrite_append (t : String) (o : Entry) (ws₁ ws₂ : List Write) :
    lastWrite t o (ws₁ ++ ws₂) =
      match lastWrite t o ws₂ with
      | some v => some v
      | none => lastWrite t o ws₁ := by
  induction ws₁ with
  | nil => simp [lastWrite]; cases lastWrite t o ws₂ <;> rfl
  | cons w ws ih =>
    rw [List.cons_append, lastWrite_cons, ih, lastWrite_cons]
    cases lastWrite t o ws₂ <;> simp

theorem entry_modify (doc : Document) (id : String) (p : Prim) (t : String) (o : Entry) :
    (doc.modify id p.run).entry t o =
      if id = t ∧ p.target = o then (doc t).map (fun _ => p.value) else doc.entry t o := by
  unfold Document.entry Document.modify
  by_cases h : t = id
  · subst h
    cases hd : doc t with
    | none => simp
    | some e =>
      simp [prim_entry_run]
      by_cases ho : p.target = o <;> simp [ho]
  · simp [h, Ne.symm h]

/-- The entry a run of writes leaves: the value of the last write to it, or the old one. -/
theorem entry_runWrites (ws : List Write) (doc : Document) (t : String) (o : Entry) :
    (runWrites ws doc).entry t o =
      match lastWrite t o ws with
      | some v => (doc t).map (fun _ => v)
      | none => doc.entry t o := by
  induction ws generalizing doc with
  | nil => rfl
  | cons w ws ih =>
    show (runWrites ws (doc.modify w.id w.op.run)).entry t o = _
    rw [ih]
    simp only [lastWrite]
    cases hl : lastWrite t o ws with
    | some v =>
      simp only
      have := congrFun (present_modify doc w.id w.op.run) t
      unfold present at this
      cases h₁ : (doc.modify w.id w.op.run) t <;> cases h₂ : doc t <;> simp_all
    | none =>
      simp only
      rw [entry_modify]
      by_cases hw : w.id = t ∧ w.op.target = o <;> simp [hw]

/-! ## The callback as a list of writes -/

theorem modify_of_absent (doc : Document) (id : String) (f : Element → Element)
    (h : doc id = none) : doc.modify id f = doc := by
  funext j
  unfold Document.modify
  by_cases hj : j = id
  · subst hj; simp [h]
  · simp [hj]

theorem guard_modify (doc doc' : Document) (id : String) (f : Element → Element)
    (h : present doc' = present doc) :
    (if (doc id).isSome then doc'.modify id f else doc') = doc'.modify id f := by
  by_cases hp : (doc id).isSome
  · simp [hp]
  · have h' : doc' id = none := by
      have := congrFun h id
      unfold present at this
      rw [Bool.not_eq_true] at hp
      rw [hp] at this
      simpa using this
    rw [modify_of_absent doc' id f h']
    simp

theorem highlight_eq (me : Identity) (verId idx : String) (res : Result) (doc : Document) :
    highlight me verId idx res doc = runWrites (highlightWrites me verId idx res) doc := by
  unfold highlight highlightWrites
  cases myVote me res with
  | undefined => rfl
  | inherited => rfl
  | str dir =>
    by_cases ht : truthyStr dir = true
    · by_cases hd : dir = "up"
      · simp only [ht, if_pos hd, if_true]; rfl
      · simp only [ht, if_neg hd, if_true]; rfl
    · simp only [ht]; rfl

theorem applyResult_eq (js : Builtins) (me : Identity) (taskId verId idx : String) (res : Result)
    (doc : Document) :
    applyResult js me taskId verId idx res doc =
      runWrites (resultWrites (present doc) js me taskId verId idx res) doc := by
  unfold applyResult resultWrites getElementById
  simp only [runWrites_append]
  have e1 : (if (doc (upId verId idx)).isSome then
        doc.modify (upId verId idx) (Element.setInnerText (toString (countOr0 res.upvotes)))
      else doc) = runWrites [⟨upId verId idx, Prim.setText (toString (countOr0 res.upvotes))⟩] doc :=
    guard_modify doc doc _ _ rfl
  rw [e1]
  have e2 : ∀ d : Document, present d = present doc →
      (if (doc (downId verId idx)).isSome then
        d.modify (downId verId idx) (Element.setInnerText (toString (countOr0 res.downvotes)))
      else d) = runWrites [⟨downId verId idx, Prim.setText (toString (countOr0 res.downvotes))⟩] d :=
    fun d hd => guard_modify doc d _ _ hd
  rw [e2 _ (present_runWrites _ _)]
  have e3 : ∀ d : Document,
      (if ((doc (btnUpId verId idx)).isSome && (doc (btnDownId verId idx)).isSome) = true then
        highlight me verId idx res d else d) =
      runWrites (if (present doc (btnUpId verId idx) && present doc (btnDownId verId idx)) = true
        then highlightWrites me verId idx res else []) d := by
    intro d
    unfold present
    by_cases hb : ((doc (btnUpId verId idx)).isSome && (doc (btnDownId verId idx)).isSome) = true
    · rw [if_pos hb, if_pos hb, highlight_eq]
    · rw [if_neg hb, if_neg hb]; rfl
  rw [e3]
  have hrun : (if cautioned res = true then Prim.addClass "res-caution"
      else Prim.removeClass "res-caution").run = Element.classToggle "res-caution" (cautioned res) := by
    funext e
    cases cautioned res <;> rfl
  have e4 : ∀ d : Document, present d = present doc →
      (if (doc (resId verId idx)).isSome then
        d.modify (resId verId idx) (Element.classToggle "res-caution" (cautioned res))
      else d) = runWrites [⟨resId verId idx, if cautioned res = true then Prim.addClass "res-caution"
        else Prim.removeClass "res-caution"⟩] d := by
    intro d hd
    rw [guard_modify doc d _ _ hd]
    show _ = d.modify _ _
    rw [hrun]
  have e5 : ∀ d : Document,
      (if (d (notesId verId idx)).isSome then
        d.modify (notesId verId idx) (Element.setInnerHTML (notesHtml js me taskId verId idx res))
      else d) = runWrites [⟨notesId verId idx, Prim.setHtml (notesHtml js me taskId verId idx res)⟩] d :=
    fun d => guard_modify d d _ _ rfl
  rw [e4 _ (by rw [present_runWrites, present_runWrites, present_runWrites]), e5]
  simp only [← runWrites_append]
  simp

theorem forEachResult_eq (js : Builtins) (me : Identity) (taskId verId : String)
    (resultsObj : List (String × Option Result)) (doc : Document) :
    forEachResult js me taskId verId resultsObj doc =
      runWrites (resultsWrites (present doc) js me taskId verId resultsObj) doc := by
  induction resultsObj generalizing doc with
  | nil => rfl
  | cons entry rest ih =>
    obtain ⟨idx, r⟩ := entry
    cases r with
    | none => exact ih doc
    | some res =>
      show forEachResult js me taskId verId rest (applyResult js me taskId verId idx res doc) = _
      rw [ih, applyResult_eq, present_runWrites]
      show _ = runWrites (_ ++ _) doc
      rw [runWrites_append]

theorem forEachVersion_doc (js : Builtins) (me : Identity) (taskId : String)
    (versions : List (String × Option Version)) (doc : Document) :
    (forEachVersion js me taskId versions doc).doc =
      runWrites (versionsWrites (present doc) js me taskId versions) doc := by
  induction versions generalizing doc with
  | nil => rfl
  | cons entry rest ih =>
    obtain ⟨verId, v⟩ := entry
    cases v with
    | none => rfl
    | some verData =>
      show (forEachVersion js me taskId rest _).doc = runWrites (_ ++ _) doc
      rw [ih, forEachResult_eq, present_runWrites, runWrites_append]

/-- A run of the callback performs the writes of the snapshot. -/
theorem onValue_doc (js : Builtins) (me : Identity) (taskId : String) (snapshot : Snapshot) (doc : Document) :
    (onValue js me taskId snapshot doc).doc =
      runWrites (snapshotWrites (present doc) js me taskId snapshot) doc := by
  cases snapshot with
  | none => rfl
  | some versions => exact forEachVersion_doc js me taskId versions doc

/-- Whether a run raises depends on the snapshot only: it does when a version is `null`. -/
theorem forEachVersion_raised (js : Builtins) (me : Identity) (taskId : String)
    (versions : List (String × Option Version)) (doc doc' : Document) :
    (forEachVersion js me taskId versions doc).raised =
      (forEachVersion js me taskId versions doc').raised := by
  induction versions generalizing doc doc' with
  | nil => rfl
  | cons entry rest ih =>
    obtain ⟨verId, v⟩ := entry
    cases v with
    | none => rfl
    | some verData => exact ih _ _

theorem onValue_raised (js : Builtins) (me : Identity) (taskId : String) (snapshot : Snapshot)
    (doc doc' : Document) :
    (onValue js me taskId snapshot doc).raised = (onValue js me taskId snapshot doc').raised := by
  cases snapshot with
  | none => rfl
  | some versions => exact forEachVersion_raised js me taskId versions doc doc'

theorem present_onValue (js : Builtins) (me : Identity) (taskId : String) (snapshot : Snapshot) (doc : Document) :
    present (onValue js me taskId snapshot doc).doc = present doc := by
  rw [onValue_doc, present_runWrites]

theorem outcome_ext_fields {a b : Outcome} (hd : a.doc = b.doc) (hr : a.raised = b.raised) :
    a = b := by
  cases a; cases b; simp_all

/-! ## Running write lists twice, in sequence, in either order -/

theorem map_const_runWrites (ws : List Write) (doc : Document) (t : String) (v : Val) :
    ((runWrites ws doc) t).map (fun _ => v) = (doc t).map (fun _ => v) := by
  have := congrFun (present_runWrites ws doc) t
  unfold present at this
  cases h₁ : (runWrites ws doc) t <;> cases h₂ : doc t <;> simp_all

/-- A write list that stores into no entry the next one leaves alone is absorbed by it. -/
theorem runWrites_absorb (ws₁ ws₂ : List Write) (doc : Document)
    (h : ∀ t o, lastWrite t o ws₂ = none → lastWrite t o ws₁ = none) :
    runWrites ws₂ (runWrites ws₁ doc) = runWrites ws₂ doc := by
  apply document_ext_entry
  intro t o
  rw [entry_runWrites, entry_runWrites ws₂ doc]
  cases h₂ : lastWrite t o ws₂ with
  | some v => exact map_const_runWrites ws₁ doc t v
  | none =>
    show (runWrites ws₁ doc).entry t o = doc.entry t o
    rw [entry_runWrites, h t o h₂]

theorem runWrites_idem (ws : List Write) (doc : Document) :
    runWrites ws (runWrites ws doc) = runWrites ws doc :=
  runWrites_absorb ws ws doc (fun _ _ h => h)

/-- Write lists that store into disjoint entries commute. -/
theorem runWrites_comm (ws₁ ws₂ : List Write) (doc : Document)
    (h : ∀ t o, lastWrite t o ws₁ = none ∨ lastWrite t o ws₂ = none) :
    runWrites ws₂ (runWrites ws₁ doc) = runWrites ws₁ (runWrites ws₂ doc) := by
  apply document_ext_entry
  intro t o
  rw [entry_runWrites, entry_runWrites ws₁ (runWrites ws₂ doc), entry_runWrites,
    entry_runWrites]
  rcases h t o with h₁ | h₂
  · rw [h₁]
    cases h₂ : lastWrite t o ws₂ with
    | some v => exact map_const_runWrites ws₁ doc t v
    | none => rfl
  · rw [h₂]
    cases h₁ : lastWrite t o ws₁ with
    | some v => exact (map_const_runWrites ws₂ doc t v).symm
    | none => rfl

/-! ## Which entries a run stores into -/

theorem lastWrite_eq_none_iff (t : String) (o : Entry) (ws : List Write) :
    lastWrite t o ws = none ↔ ∀ w ∈ ws, ¬ (w.id = t ∧ w.op.target = o) := by
  induction ws with
  | nil => simp [lastWrite]
  | cons w ws ih =>
    rw [lastWrite_cons]
    cases h : lastWrite t o ws with
    | some v =>
      rw [h] at ih
      have ih' : ¬ ∀ w ∈ ws, ¬ (w.id = t ∧ w.op.target = o) := fun hc => by
        have := ih.2 hc
        cases this
      constructor
      · intro hc; cases hc
      · intro hc
        exact absurd (fun w hw => hc w (List.mem_cons_of_mem _ hw)) ih'
    | none =>
      rw [h] at ih
      have ih' : ∀ w ∈ ws, ¬ (w.id = t ∧ w.op.target = o) := ih.1 rfl
      by_cases hw : w.id = t ∧ w.op.target = o
      · simp only [hw, and_self, if_true]
        constructor
        · intro hc; cases hc
        · intro hc; exact absurd hw (hc w (List.mem_cons_self _ _))
      · simp only [if_neg hw, true_iff]
        intro w' hw'
        rcases List.mem_cons.1 hw' with rfl | hmem
        · exact hw
        · exact ih' w' hmem

/-- The entries a write list stores into. -/
theorem lastWrite_eq_none_iff_not_mem (t : String) (o : Entry) (ws : List Write) :
    lastWrite t o ws = none ↔ (t, o) ∉ ws.map (fun w => (w.id, w.op.target)) := by
  rw [lastWrite_eq_none_iff]
  constructor
  · intro h hmem
    obtain ⟨w, hw, he⟩ := List.mem_map.1 hmem
    have h1 : w.id = t := congrArg Prod.fst he
    have h2 : w.op.target = o := congrArg Prod.snd he
    exact h w hw ⟨h1, h2⟩
  · intro h w hw hc
    apply h
    apply List.mem_map.2
    exact ⟨w, hw, by rw [hc.1, hc.2]⟩

theorem mem_targets_highlightWrites (me : Identity) (verId idx : String) (res : Result)
    (x : String × Entry) :
    x ∈ (highlightWrites me verId idx res).map (fun w => (w.id, w.op.target)) ↔
      x ∈ [(btnUpId verId idx, Entry.cls "vote-active-up"),
           (btnDownId verId idx, Entry.cls "vote-active-down")] := by
  unfold highlightWrites
  cases myVote me res with
  | undefined => simp [Prim.target]
  | inherited => simp [Prim.target]
  | str dir =>
    by_cases ht : truthyStr dir = true
    · by_cases hd : dir = "up"
      · simp only [ht, if_pos hd, if_true]
        simp [Prim.target]
        tauto
      · simp only [ht, if_neg hd, if_true]
        simp [Prim.target]
    · simp only [ht]
      simp [Prim.target]

theorem mem_targets_resultWrites (p : String → Bool) (js : Builtins) (me : Identity) (taskId verId idx : String)
    (res : Result) (x : String × Entry) :
    x ∈ (resultWrites p js me taskId verId idx res).map (fun w => (w.id, w.op.target)) ↔
      x ∈ resultTargets p verId idx := by
  have hc : (if cautioned res = true then Prim.addClass "res-caution"
      else Prim.removeClass "res-caution").target = Entry.cls "res-caution" := by
    cases cautioned res <;> rfl
  unfold resultWrites resultTargets
  simp only [List.map_append, List.mem_append, List.map_cons, List.map_nil, hc]
  by_cases hb : (p (btnUpId verId idx) && p (btnDownId verId idx)) = true
  · simp only [hb, if_true, mem_targets_highlightWrites]
    rfl
  · simp only [hb]
    rfl

theorem mem_targets_resultsWrites (p : String → Bool) (js : Builtins) (me : Identity) (taskId verId : String)
    (resultsObj : List (String × Option Result)) (x : String × Entry) :
    x ∈ (resultsWrites p js me taskId verId resultsObj).map (fun w => (w.id, w.op.target)) ↔
      ∃ k ∈ resultKeys verId resultsObj, x ∈ resultTargets p k.1 k.2 := by
  induction resultsObj with
  | nil => simp [resultsWrites, resultKeys]
  | cons entry rest ih =>
    obtain ⟨idx, r⟩ := entry
    cases r with
    | none =>
      have hk : resultKeys verId ((idx, none) :: rest) = resultKeys verId rest := by
        simp [resultKeys]
      rw [hk]
      exact ih
    | some res =>
      have hk : resultKeys verId ((idx, some res) :: rest) =
          (verId, idx) :: resultKeys verId rest := by
        simp [resultKeys]
      rw [hk]
      show x ∈ (resultWrites p js me taskId verId idx res ++ _).map _ ↔ _
      rw [List.map_append, List.mem_append, mem_targets_resultWrites, ih]
      simp only [List.mem_cons, exists_eq_or_imp]

theorem mem_targets_versionsWrites (p : String → Bool) (js : Builtins) (me : Identity) (taskId : String)
    (versions : List (String × Option Version)) (x : String × Entry) :
    x ∈ (versionsWrites p js me taskId versions).map (fun w => (w.id, w.op.target)) ↔
      ∃ k ∈ versionKeys versions, x ∈ resultTargets p k.1 k.2 := by
  induction versions with
  | nil => simp [versionsWrites, versionKeys]
  | cons entry rest ih =>
    obtain ⟨verId, v⟩ := entry
    cases v with
    | none => simp [versionsWrites, versionKeys]
    | some verData =>
      show x ∈ (resultsWrites p js me taskId verId _ ++ versionsWrites p js me taskId rest).map _ ↔
        ∃ k ∈ resultKeys verId _ ++ versionKeys rest, _
      rw [List.map_append, List.mem_append, mem_targets_resultsWrites, ih]
      simp only [List.mem_append, or_and_right, exists_or]

/-- The entries a run of the callback stores into: those of the keys it updates. -/
theorem mem_targets_snapshotWrites (p : String → Bool) (js : Builtins) (me : Identity) (taskId : String)
    (snapshot : Snapshot) (x : String × Entry) :
    x ∈ (snapshotWrites p js me taskId snapshot).map (fun w => (w.id, w.op.target)) ↔
      ∃ k ∈ updatedKeys snapshot, x ∈ resultTargets p k.1 k.2 := by
  cases snapshot with
  | none => simp [snapshotWrites, updatedKeys]
  | some versions => exact mem_targets_versionsWrites p js me taskId versions x

/-! ## Render target ids -/

theorem str_append_left_cancel {a b c : String} (h : a ++ b = a ++ c) : b = c := by
  have hd := congrArg String.data h
  rw [String.data_append, String.data_append] at hd
  exact String.ext (List.append_cancel_left hd)

theorem upId_eq (k : String × String) : upId k.1 k.2 = "up-" ++ targetKey k := by
  simp [upId, targetKey, String.append_assoc]

theorem downId_eq (k : String × String) : downId k.1 k.2 = "down-" ++ targetKey k := by
  simp [downId, targetKey, String.append_assoc]

theorem btnUpId_eq (k : String × String) : btnUpId k.1 k.2 = "btn-up-" ++ targetKey k := by
  simp [btnUpId, targetKey, String.append_assoc]

theorem btnDownId_eq (k : String × String) : btnDownId k.1 k.2 = "btn-down-" ++ targetKey k := by
  simp [btnDownId, targetKey, String.append_assoc]

theorem resId_eq (k : String × String) : resId k.1 k.2 = "res-" ++ targetKey k := by
  simp [resId, targetKey, String.append_assoc]

theorem notesId_eq (k : String × String) : notesId k.1 k.2 = "notes-" ++ targetKey k := by
  simp [notesId, targetKey, String.append_assoc]

theorem up_ne_down (a b : String) : "up-" ++ a ≠ "down-" ++ b := by
  intro h
  have hd := congrArg String.data h
  rw [String.data_append, String.data_append] at hd
  have h0 := congrArg List.head? hd
  simp at h0

/-- The up-count and the down-count target of a result are different elements. -/
theorem upId_ne_downId (k k' : String × String) : upId k.1 k.2 ≠ downId k'.1 k'.2 := by
  rw [upId_eq, downId_eq]
  exact up_ne_down _ _

theorem mem_resultTargets (p : String → Bool) (k : String × String) (t : String) (o : Entry)
    (h : (t, o) ∈ resultTargets p k.1 k.2) :
    (t = "up-" ++ targetKey k ∧ o = Entry.text) ∨
    (t = "down-" ++ targetKey k ∧ o = Entry.text) ∨
    (t = "btn-up-" ++ targetKey k ∧ o = Entry.cls "vote-active-up") ∨
    (t = "btn-down-" ++ targetKey k ∧ o = Entry.cls "vote-active-down") ∨
    (t = "res-" ++ targetKey k ∧ o = Entry.cls "res-caution") ∨
    (t = "notes-" ++ targetKey k ∧ o = Entry.html) := by
  unfold resultTargets at h
  rw [upId_eq, downId_eq, btnUpId_eq, btnDownId_eq, resId_eq, notesId_eq] at h
  by_cases hb : (p ("btn-up-" ++ targetKey k) && p ("btn-down-" ++ targetKey k)) = true
  · simp only [hb, if_true, List.mem_append, List.mem_cons, Prod.mk.injEq,
      List.mem_nil_iff, or_false] at h
    tauto
  · simp only [hb, List.mem_append, List.mem_cons, Prod.mk.injEq,
      List.mem_nil_iff, or_false] at h
    tauto

/-- Two results that store into a common entry have the same target key. -/
theorem targetKey_eq_of_common_target (p : String → Bool) (a b : String × String)
    (x : String × Entry) (ha : x ∈ resultTargets p a.1 a.2) (hb : x ∈ resultTargets p b.1 b.2) :
    targetKey a = targetKey b := by
  obtain ⟨t, o⟩ := x
  have key : ∀ pre : String, t = pre ++ targetKey a → t = pre ++ targetKey b →
      targetKey a = targetKey b := fun pre h₁ h₂ => str_append_left_cancel (h₁.symm.trans h₂)
  have cross : ∀ u v : String, t = "up-" ++ u → t = "down-" ++ v → False :=
    fun u v h₁ h₂ => up_ne_down u v (h₁.symm.trans h₂)
  rcases mem_resultTargets p a t o ha with ⟨h₁, h₂⟩ | ⟨h₁, h₂⟩ | ⟨h₁, h₂⟩ | ⟨h₁, h₂⟩ | ⟨h₁, h₂⟩ |
      ⟨h₁, h₂⟩ <;>
    rcases mem_resultTargets p b t o hb with ⟨h₃, h₄⟩ | ⟨h₃, h₄⟩ | ⟨h₃, h₄⟩ | ⟨h₃, h₄⟩ |
      ⟨h₃, h₄⟩ | ⟨h₃, h₄⟩ <;>
    first
      | exact key _ h₁ h₃
      | exact (cross _ _ h₁ h₃).elim
      | exact (cross _ _ h₃ h₁).elim
      | exact absurd (h₂.symm.trans h₄) (by decide)

/-! ## Repeated and successive snapshots -/

theorem onValues_cons (js : Builtins) (me : Identity) (taskId : String) (s : Snapshot) (rest : List Snapshot)
    (doc : Document) :
    onValues js me taskId (s :: rest) doc = onValues js me taskId rest (onValue js me taskId s doc).doc :=
  rfl

theorem onValues_append_singleton (js : Builtins) (me : Identity) (taskId : String) (earlier : List Snapshot)
    (last : Snapshot) (doc : Document) :
    onValues js me taskId (earlier ++ [last]) doc =
      (onValue js me taskId last (onValues js me taskId earlier doc)).doc := by
  simp [onValues, List.foldl_append]

theorem present_onValues (js : Builtins) (me : Identity) (taskId : String) (snapshots : List Snapshot)
    (doc : Document) : present (onValues js me taskId snapshots doc) = present doc := by
  induction snapshots generalizing doc with
  | nil => rfl
  | cons s rest ih => rw [onValues_cons, ih, present_onValue]

/-- What earlier snapshots stored is overwritten by a snapshot that updates their keys. -/
theorem runWrites_onValues_absorb (js : Builtins) (me : Identity) (taskId : String) (earlier : List Snapshot)
    (last : Snapshot) (doc : Document)
    (h : ∀ s ∈ earlier, ∀ k ∈ updatedKeys s, k ∈ updatedKeys last) :
    runWrites (snapshotWrites (present doc) js me taskId last) (onValues js me taskId earlier doc) =
      runWrites (snapshotWrites (present doc) js me taskId last) doc := by
  induction earlier generalizing doc with
  | nil => rfl
  | cons s rest ih =>
    rw [onValues_cons]
    have hp := present_onValue js me taskId s doc
    have ih' := ih (onValue js me taskId s doc).doc
      (fun s' hs' => h s' (List.mem_cons_of_mem _ hs'))
    rw [hp] at ih'
    rw [ih', onValue_doc]
    apply runWrites_absorb
    intro t o hlast
    rw [lastWrite_eq_none_iff_not_mem, mem_targets_snapshotWrites] at hlast ⊢
    rintro ⟨k, hk, hx⟩
    exact hlast ⟨k, h s (List.mem_cons_self _ _) k hk, hx⟩

/-- C1 (as amended): for every initial view state, current user and finite sequence of
snapshots of one task in which every `(versionId, resultIndex)` updated by an earlier
snapshot is also updated by the last one, running the value handler on the whole sequence
in arrival order leaves the same view state as running it on the last snapshot alone. -/
theorem onValues_converges (js : Builtins) (me : Identity) (taskId : String) (earlier : List Snapshot)
    (last : Snapshot) (doc : Document)
    (h : ∀ s ∈ earlier, ∀ k ∈ updatedKeys s, k ∈ updatedKeys last) :
    onValues js me taskId (earlier ++ [last]) doc = (onValue js me taskId last doc).doc := by
  rw [onValues_append_singleton, onValue_doc, onValue_doc, present_onValues]
  exact runWrites_onValues_absorb js me taskId earlier last doc h

/-- Witness for C1 (as amended): a snapshot of result `0` of version `v1` followed by the
scenario snapshot, which updates the same result. -/
theorem onValues_converges_witness :
    onValues asciiBuiltins scenarioIdentity "t1" ([countSnapshot "v1" "0" 9] ++ [scenarioSnapshot])
        scenarioDocument =
      (onValue asciiBuiltins scenarioIdentity "t1" scenarioSnapshot scenarioDocument).doc :=
  onValues_converges asciiBuiltins scenarioIdentity "t1" [countSnapshot "v1" "0" 9] scenarioSnapshot
    scenarioDocument (by decide)

/-- Counterexample to C1 as stated: after a snapshot holding result `0` of `v1` and then one
holding only result `1`, the up-count of result `0` still shows the `5` of the first
snapshot, while the second snapshot alone leaves it as it was. -/
theorem onValues_not_last_alone :
    ((onValues asciiBuiltins scenarioIdentity "t1" [countSnapshot "v1" "0" 5, countSnapshot "v1" "1" 7]
        scenarioDocument) "up-v1-0").map Element.innerText = some "5" ∧
    ((onValue asciiBuiltins scenarioIdentity "t1" (countSnapshot "v1" "1" 7) scenarioDocument).doc
        "up-v1-0").map Element.innerText = some "" ∧
    onValues asciiBuiltins scenarioIdentity "t1" [countSnapshot "v1" "0" 5, countSnapshot "v1" "1" 7]
        scenarioDocument ≠
      (onValue asciiBuiltins scenarioIdentity "t1" (countSnapshot "v1" "1" 7) scenarioDocument).doc := by
  refine ⟨by decide, by decide, ?_⟩
  intro h
  have h' := congrArg (fun d : Document => (d "up-v1-0").map Element.innerText) h
  revert h'
  decide

/-- C2: running the value handler twice in a row on the same snapshot leaves exactly the
view state, and the same outcome, as running it once. -/
theorem onValue_idempotent (js : Builtins) (me : Identity) (taskId : String) (snapshot : Snapshot)
    (doc : Document) :
    onValue js me taskId snapshot (onValue js me taskId snapshot doc).doc =
      onValue js me taskId snapshot doc := by
  apply outcome_ext_fields
  · rw [onValue_doc, present_onValue, onValue_doc]
    exact runWrites_idem _ _
  · exact onValue_raised js me taskId snapshot _ _

/-! ## Two tasks -/

theorem snapshotWrites_disjoint (p : String → Bool) (js : Builtins) (me : Identity) (taskA taskB : String)
    (snapA snapB : Snapshot)
    (h : ∀ a ∈ updatedKeys snapA, ∀ b ∈ updatedKeys snapB, targetKey a ≠ targetKey b)
    (t : String) (o : Entry) :
    lastWrite t o (snapshotWrites p js me taskA snapA) = none ∨
      lastWrite t o (snapshotWrites p js me taskB snapB) = none := by
  rw [lastWrite_eq_none_iff_not_mem, lastWrite_eq_none_iff_not_mem,
    mem_targets_snapshotWrites, mem_targets_snapshotWrites]
  by_contra hc
  rw [not_or, not_not, not_not] at hc
  obtain ⟨⟨a, ha, hxa⟩, ⟨b, hb, hxb⟩⟩ := hc
  exact h a ha b hb (targetKey_eq_of_common_target p a b (t, o) hxa hxb)

/-- C5 (as amended): for two tasks whose snapshots update no common render target, that is,
no `{versionId}-{resultIndex}` of a result updated for one task equals that of a result
updated for the other, running the handler of A leaves every entry alone that the handler of
B stores into, and the two handlers commute. -/
theorem onValue_tasks_commute (js : Builtins) (me : Identity) (taskA taskB : String) (snapA snapB : Snapshot)
    (doc : Document)
    (h : ∀ a ∈ updatedKeys snapA, ∀ b ∈ updatedKeys snapB, targetKey a ≠ targetKey b) :
    (∀ t o, (∃ b ∈ updatedKeys snapB, (t, o) ∈ resultTargets (present doc) b.1 b.2) →
      (onValue js me taskA snapA doc).doc.entry t o = doc.entry t o) ∧
    (onValue js me taskB snapB (onValue js me taskA snapA doc).doc).doc =
      (onValue js me taskA snapA (onValue js me taskB snapB doc).doc).doc := by
  constructor
  · intro t o hb
    rw [onValue_doc, entry_runWrites]
    have hA : lastWrite t o (snapshotWrites (present doc) js me taskA snapA) = none := by
      rcases snapshotWrites_disjoint (present doc) js me taskA taskB snapA snapB h t o with h₁ | h₂
      · exact h₁
      · rw [lastWrite_eq_none_iff_not_mem, mem_targets_snapshotWrites] at h₂
        exact absurd hb h₂
    rw [hA]
  · rw [onValue_doc, onValue_doc, onValue_doc js me taskA snapA (onValue js me taskB snapB doc).doc,
      onValue_doc js me taskB snapB doc, present_runWrites, present_runWrites]
    exact runWrites_comm _ _ doc (snapshotWrites_disjoint (present doc) js me taskA taskB snapA snapB h)

/-! ## What the per-result body leaves in each target -/

theorem entry_applyResult (js : Builtins) (me : Identity) (taskId verId idx : String) (res : Result)
    (doc : Document) (t : String) (o : Entry) :
    (applyResult js me taskId verId idx res doc).entry t o =
      match lastWrite t o (resultWrites (present doc) js me taskId verId idx res) with
      | some v => (doc t).map (fun _ => v)
      | none => doc.entry t o := by
  rw [applyResult_eq, entry_runWrites]

theorem lastWrite_highlightWrites_none (me : Identity) (verId idx : String) (res : Result)
    (t : String) (o : Entry) (h₁ : o ≠ Entry.cls "vote-active-up")
    (h₂ : o ≠ Entry.cls "vote-active-down") :
    lastWrite t o (highlightWrites me verId idx res) = none := by
  rw [lastWrite_eq_none_iff_not_mem, mem_targets_highlightWrites]
  simp only [List.mem_cons, Prod.mk.injEq, List.mem_nil_iff, or_false]
  rintro (⟨_, h⟩ | ⟨_, h⟩)
  · exact h₁ h
  · exact h₂ h

theorem lastWrite_guarded_highlight_none (b : Bool) (me : Identity) (verId idx : String)
    (res : Result) (t : String) (o : Entry) (h₁ : o ≠ Entry.cls "vote-active-up")
    (h₂ : o ≠ Entry.cls "vote-active-down") :
    lastWrite t o (if b = true then highlightWrites me verId idx res else []) = none := by
  cases b
  · rfl
  · exact lastWrite_highlightWrites_none me verId idx res t o h₁ h₂

theorem lastWrite_up_text (p : String → Bool) (js : Builtins) (me : Identity) (taskId verId idx : String)
    (res : Result) :
    lastWrite (upId verId idx) Entry.text (resultWrites p js me taskId verId idx res) =
      some (Val.str (toString (countOr0 res.upvotes))) := by
  have hne : downId verId idx ≠ upId verId idx := (upId_ne_downId (verId, idx) (verId, idx)).symm
  unfold resultWrites
  rw [lastWrite_append, lastWrite_append,
    lastWrite_guarded_highlight_none _ me verId idx res _ _ (by decide) (by decide)]
  cases cautioned res <;> simp [lastWrite, Prim.target, Prim.value, hne]

theorem lastWrite_down_text (p : String → Bool) (js : Builtins) (me : Identity) (taskId verId idx : String)
    (res : Result) :
    lastWrite (downId verId idx) Entry.text (resultWrites p js me taskId verId idx res) =
      some (Val.str (toString (countOr0 res.downvotes))) := by
  unfold resultWrites
  rw [lastWrite_append, lastWrite_append,
    lastWrite_guarded_highlight_none _ me verId idx res _ _ (by decide) (by decide)]
  cases cautioned res <;> simp [lastWrite, Prim.target, Prim.value]

theorem lastWrite_res_caution (p : String → Bool) (js : Builtins) (me : Identity) (taskId verId idx : String)
    (res : Result) :
    lastWrite (resId verId idx) (Entry.cls "res-caution")
        (resultWrites p js me taskId verId idx res) = some (Val.flag (cautioned res)) := by
  unfold resultWrites
  rw [lastWrite_append]
  cases cautioned res <;> simp [lastWrite, Prim.target, Prim.value]

theorem lastWrite_notes_html (p : String → Bool) (js : Builtins) (me : Identity) (taskId verId idx : String)
    (res : Result) :
    lastWrite (notesId verId idx) Entry.html (resultWrites p js me taskId verId idx res) =
      some (Val.str (notesHtml js me taskId verId idx res)) := by
  unfold resultWrites
  rw [lastWrite_append]
  simp [lastWrite, Prim.target, Prim.value]

/-- The up highlight written by the highlight block. -/
theorem lastWrite_highlight_up (me : Identity) (verId idx : String) (res : Result) :
    lastWrite (btnUpId verId idx) (Entry.cls "vote-active-up")
        (highlightWrites me verId idx res) =
      some (Val.flag (decide (myVote me res = VoterRead.str "up"))) := by
  unfold highlightWrites
  cases myVote me res with
  | undefined => simp [lastWrite, Prim.target, Prim.value]
  | inherited => simp [lastWrite, Prim.target, Prim.value]
  | str dir =>
    by_cases hd : dir = "up"
    · subst hd
      simp [lastWrite, Prim.target, Prim.value, truthyStr]
    · by_cases ht : truthyStr dir = true
      · simp [lastWrite, Prim.target, Prim.value, ht, hd]
      · simp [lastWrite, Prim.target, Prim.value, ht, hd]

/-- The down highlight written by the highlight block: set for every truthy value other than
`up`. -/
theorem lastWrite_highlight_down (me : Identity) (verId idx : String) (res : Result) :
    lastWrite (btnDownId verId idx) (Entry.cls "vote-active-down")
        (highlightWrites me verId idx res) =
      some (Val.flag (myVote me res).addsDown) := by
  unfold highlightWrites
  cases myVote me res with
  | undefined => simp [lastWrite, Prim.target, Prim.value, VoterRead.addsDown]
  | inherited => simp [lastWrite, Prim.target, Prim.value, VoterRead.addsDown]
  | str dir =>
    by_cases hd : dir = "up"
    · subst hd
      simp [lastWrite, Prim.target, Prim.value, truthyStr, VoterRead.addsDown]
    · by_cases ht : dir = ""
      · subst ht
        simp [lastWrite, Prim.target, Prim.value, truthyStr, VoterRead.addsDown]
      · have ht' : truthyStr dir = true := by simp [truthyStr, ht]
        simp [lastWrite, Prim.target, Prim.value, ht', hd, VoterRead.addsDown]

theorem lastWrite_btn_up (p : String → Bool) (js : Builtins) (me : Identity)
    (taskId verId idx : String) (res : Result)
    (hp : (p (btnUpId verId idx) && p (btnDownId verId idx)) = true) :
    lastWrite (btnUpId verId idx) (Entry.cls "vote-active-up")
        (resultWrites p js me taskId verId idx res) =
      some (Val.flag (decide (myVote me res = VoterRead.str "up"))) := by
  unfold resultWrites
  rw [lastWrite_append, lastWrite_append, if_pos hp, lastWrite_highlight_up]
  cases cautioned res <;> simp [lastWrite, Prim.target, Prim.value]

theorem lastWrite_btn_down (p : String → Bool) (js : Builtins) (me : Identity)
    (taskId verId idx : String) (res : Result)
    (hp : (p (btnUpId verId idx) && p (btnDownId verId idx)) = true) :
    lastWrite (btnDownId verId idx) (Entry.cls "vote-active-down")
        (resultWrites p js me taskId verId idx res) =
      some (Val.flag (myVote me res).addsDown) := by
  unfold resultWrites
  rw [lastWrite_append, lastWrite_append, if_pos hp, lastWrite_highlight_down]
  cases cautioned res <;> simp [lastWrite, Prim.target, Prim.value]

/-! ## From the per-result body to the whole callback -/

theorem resultsWrites_eq_flatMap (p : String → Bool) (js : Builtins) (me : Identity) (taskId verId : String)
    (resultsObj : List (String × Option Result)) :
    resultsWrites p js me taskId verId resultsObj =
      (versionResults verId resultsObj).flatMap
        (fun r => resultWrites p js me taskId r.1 r.2.1 r.2.2) := by
  induction resultsObj with
  | nil => rfl
  | cons entry rest ih =>
    obtain ⟨idx, r⟩ := entry
    cases r with
    | none =>
      have hk : versionResults verId ((idx, none) :: rest) = versionResults verId rest := by
        simp [versionResults]
      rw [hk]
      exact ih
    | some res =>
      have hk : versionResults verId ((idx, some res) :: rest) =
          (verId, idx, res) :: versionResults verId rest := by
        simp [versionResults]
      rw [hk, List.flatMap_cons, ← ih]
      rfl

theorem versionsWrites_eq_flatMap (p : String → Bool) (js : Builtins) (me : Identity) (taskId : String)
    (versions : List (String × Option Version)) :
    versionsWrites p js me taskId versions =
      (reachedVersions versions).flatMap (fun r => resultWrites p js me taskId r.1 r.2.1 r.2.2) := by
  induction versions with
  | nil => rfl
  | cons entry rest ih =>
    obtain ⟨verId, v⟩ := entry
    cases v with
    | none => rfl
    | some verData =>
      show resultsWrites p js me taskId verId _ ++ versionsWrites p js me taskId rest =
        (versionResults verId _ ++ reachedVersions rest).flatMap _
      rw [List.flatMap_append, ← ih, resultsWrites_eq_flatMap]

theorem snapshotWrites_eq_flatMap (p : String → Bool) (js : Builtins) (me : Identity) (taskId : String)
    (snapshot : Snapshot) :
    snapshotWrites p js me taskId snapshot =
      (reachedResults snapshot).flatMap (fun r => resultWrites p js me taskId r.1 r.2.1 r.2.2) := by
  cases snapshot with
  | none => rfl
  | some versions => exact versionsWrites_eq_flatMap p js me taskId versions

theorem lastWrite_flatMap_none {α : Type} (t : String) (o : Entry) (f : α → List Write)
    (rs : List α) (h : ∀ r ∈ rs, lastWrite t o (f r) = none) :
    lastWrite t o (rs.flatMap f) = none := by
  induction rs with
  | nil => rfl
  | cons r rest ih =>
    rw [List.flatMap_cons, lastWrite_append, ih (fun r' hr' => h r' (List.mem_cons_of_mem _ hr')),
      h r (List.mem_cons_self _ _)]

/-- Among write lists of which only one stores into an entry, that one decides the entry. -/
theorem lastWrite_flatMap_unique {α : Type} (t : String) (o : Entry) (f : α → List Write)
    (rs : List α) (r₀ : α) (hmem : r₀ ∈ rs)
    (h : ∀ r ∈ rs, r ≠ r₀ → lastWrite t o (f r) = none) :
    lastWrite t o (rs.flatMap f) = lastWrite t o (f r₀) := by
  induction rs with
  | nil => cases hmem
  | cons r rest ih =>
    rw [List.flatMap_cons, lastWrite_append]
    have hrest : ∀ r' ∈ rest, r' ≠ r₀ → lastWrite t o (f r') = none :=
      fun r' hr' => h r' (List.mem_cons_of_mem _ hr')
    by_cases hin : r₀ ∈ rest
    · rw [ih hin hrest]
      cases hl : lastWrite t o (f r₀) with
      | some v => rfl
      | none =>
        show lastWrite t o (f r) = none
        by_cases hr : r = r₀
        · rw [hr, hl]
        · exact h r (List.mem_cons_self _ _) hr
    · have hr : r = r₀ := by
        rcases List.mem_cons.1 hmem with h' | h'
        · exact h'.symm
        · exact absurd h' hin
      have hnone : lastWrite t o (rest.flatMap f) = none :=
        lastWrite_flatMap_none t o f rest
          (fun r' hr' => hrest r' hr' (fun hc => hin (hc ▸ hr')))
      rw [hnone, hr]

/-- The callback leaves in every entry of a reached result's targets what the per-result
body leaves there, provided no other reached result has the same target key. -/
theorem onValue_entry_of_reached (js : Builtins) (me : Identity) (taskId : String) (snapshot : Snapshot)
    (doc : Document) (verId idx : String) (res : Result)
    (hmem : (verId, idx, res) ∈ reachedResults snapshot)
    (huniq : ∀ r ∈ reachedResults snapshot,
      targetKey (r.1, r.2.1) = targetKey (verId, idx) → r = (verId, idx, res))
    (t : String) (o : Entry) (hx : (t, o) ∈ resultTargets (present doc) verId idx) :
    (onValue js me taskId snapshot doc).doc.entry t o =
      (applyResult js me taskId verId idx res doc).entry t o := by
  rw [onValue_doc, entry_runWrites, entry_applyResult, snapshotWrites_eq_flatMap]
  rw [lastWrite_flatMap_unique t o _ _ (verId, idx, res) hmem]
  intro r hr hne
  rw [lastWrite_eq_none_iff_not_mem, mem_targets_resultWrites]
  intro hc
  exact hne (huniq r hr
    (targetKey_eq_of_common_target (present doc) (r.1, r.2.1) (verId, idx) (t, o) hc hx))

theorem entry_text (doc : Document) (t : String) :
    doc.entry t Entry.text = (textOf doc t).map Val.str := by
  unfold Document.entry textOf
  cases doc t <;> rfl

theorem entry_html (doc : Document) (t : String) :
    doc.entry t Entry.html = (htmlOf doc t).map Val.str := by
  unfold Document.entry htmlOf
  cases doc t <;> rfl

theorem entry_cls (doc : Document) (t c : String) :
    doc.entry t (Entry.cls c) = (hasClass doc t c).map Val.flag := by
  unfold Document.entry hasClass
  cases doc t <;> rfl

theorem textOf_eq_of_entry {doc doc' : Document} {t t' : String}
    (h : doc.entry t Entry.text = doc'.entry t' Entry.text) : textOf doc t = textOf doc' t' := by
  rw [entry_text, entry_text] at h
  exact Option.map_injective (fun a b hab => Val.str.inj hab) h

theorem htmlOf_eq_of_entry {doc doc' : Document} {t t' : String}
    (h : doc.entry t Entry.html = doc'.entry t' Entry.html) : htmlOf doc t = htmlOf doc' t' := by
  rw [entry_html, entry_html] at h
  exact Option.map_injective (fun a b hab => Val.str.inj hab) h

theorem hasClass_eq_of_entry {doc doc' : Document} {t t' c : String}
    (h : doc.entry t (Entry.cls c) = doc'.entry t' (Entry.cls c)) :
    hasClass doc t c = hasClass doc' t' c := by
  rw [entry_cls, entry_cls] at h
  exact Option.map_injective (fun a b hab => Val.flag.inj hab) h

/-! ## Vote counts, highlights and the caution flag -/

theorem mem_of_lookup_eq_some {k d : String} :
    ∀ {l : List (String × String)}, l.lookup k = some d → (k, d) ∈ l
  | [], h => by cases h
  | (k', d') :: rest, h => by
    rw [List.lookup_cons] at h
    by_cases hk : k = k'
    · have hb : (k == k') = true := by simp [hk]
      rw [hb] at h
      cases h
      rw [hk]
      exact List.mem_cons_self _ _
    · have hb : (k == k') = false := by simp [hk]
      rw [hb] at h
      exact List.mem_cons_of_mem _ (mem_of_lookup_eq_some h)

/-- For a key that names no inherited property, `voters[k]` is the own entry or nothing. -/
theorem myVote_of_own_key (me : Identity) (res : Result)
    (hkey : me.userSanitizedKey ∉ objectPrototypeNames) :
    myVote me res =
      match (res.voters.getD []).lookup me.userSanitizedKey with
      | some dir => VoterRead.str dir
      | none => VoterRead.undefined := by
  unfold myVote
  cases res.voters with
  | none => rfl
  | some voters =>
    show (match voters.lookup me.userSanitizedKey with
      | some dir => VoterRead.str dir
      | none => if me.userSanitizedKey ∈ objectPrototypeNames then VoterRead.inherited
          else VoterRead.undefined) = _
    rw [if_neg hkey]
    rfl

theorem up_vote_iff (me : Identity) (res : Result)
    (hkey : me.userSanitizedKey ∉ objectPrototypeNames) :
    myVote me res = VoterRead.str "up" ↔
      (res.voters.getD []).lookup me.userSanitizedKey = some "up" := by
  rw [myVote_of_own_key me res hkey]
  cases (res.voters.getD []).lookup me.userSanitizedKey with
  | none => simp
  | some dir => simp

theorem down_vote_iff (me : Identity) (res : Result)
    (hvals : ∀ kv ∈ res.voters.getD [], kv.2 = "up" ∨ kv.2 = "down")
    (hkey : me.userSanitizedKey ∉ objectPrototypeNames) :
    (myVote me res).addsDown = true ↔
      (res.voters.getD []).lookup me.userSanitizedKey = some "down" := by
  rw [myVote_of_own_key me res hkey]
  cases hl : (res.voters.getD []).lookup me.userSanitizedKey with
  | none => simp [VoterRead.addsDown]
  | some dir =>
    rcases hvals _ (mem_of_lookup_eq_some hl) with h | h
    · have h' : dir = "up" := h
      subst h'
      simp [VoterRead.addsDown]
    · have h' : dir = "down" := h
      subst h'
      simp [VoterRead.addsDown, truthyStr]

theorem mem_resultTargets_up (p : String → Bool) (verId idx : String) :
    (upId verId idx, Entry.text) ∈ resultTargets p verId idx := by
  simp [resultTargets]

theorem mem_resultTargets_down (p : String → Bool) (verId idx : String) :
    (downId verId idx, Entry.text) ∈ resultTargets p verId idx := by
  simp [resultTargets]

theorem mem_resultTargets_res (p : String → Bool) (verId idx : String) :
    (resId verId idx, Entry.cls "res-caution") ∈ resultTargets p verId idx := by
  simp [resultTargets]

theorem mem_resultTargets_notes (p : String → Bool) (verId idx : String) :
    (notesId verId idx, Entry.html) ∈ resultTargets p verId idx := by
  simp [resultTargets]

theorem mem_resultTargets_btnUp (p : String → Bool) (verId idx : String)
    (hp : (p (btnUpId verId idx) && p (btnDownId verId idx)) = true) :
    (btnUpId verId idx, Entry.cls "vote-active-up") ∈ resultTargets p verId idx := by
  simp [resultTargets, hp]

theorem mem_resultTargets_btnDown (p : String → Bool) (verId idx : String)
    (hp : (p (btnUpId verId idx) && p (btnDownId verId idx)) = true) :
    (btnDownId verId idx, Entry.cls "vote-active-down") ∈ resultTargets p verId idx := by
  simp [resultTargets, hp]

theorem textOf_applyResult_up (js : Builtins) (me : Identity) (taskId verId idx : String) (res : Result)
    (doc : Document) :
    textOf (applyResult js me taskId verId idx res doc) (upId verId idx) =
      if (doc (upId verId idx)).isSome then some (toString (countOr0 res.upvotes)) else none := by
  have h := entry_applyResult js me taskId verId idx res doc (upId verId idx) Entry.text
  rw [lastWrite_up_text, entry_text] at h
  cases hd : doc (upId verId idx) <;> rw [hd] at h <;> cases ht : textOf _ _ <;>
    rw [ht] at h <;> simp_all

theorem textOf_applyResult_down (js : Builtins) (me : Identity) (taskId verId idx : String) (res : Result)
    (doc : Document) :
    textOf (applyResult js me taskId verId idx res doc) (downId verId idx) =
      if (doc (downId verId idx)).isSome then some (toString (countOr0 res.downvotes))
      else none := by
  have h := entry_applyResult js me taskId verId idx res doc (downId verId idx) Entry.text
  rw [lastWrite_down_text, entry_text] at h
  cases hd : doc (downId verId idx) <;> rw [hd] at h <;> cases ht : textOf _ _ <;>
    rw [ht] at h <;> simp_all

theorem htmlOf_applyResult_notes (js : Builtins) (me : Identity) (taskId verId idx : String) (res : Result)
    (doc : Document) :
    htmlOf (applyResult js me taskId verId idx res doc) (notesId verId idx) =
      if (doc (notesId verId idx)).isSome then some (notesHtml js me taskId verId idx res)
      else none := by
  have h := entry_applyResult js me taskId verId idx res doc (notesId verId idx) Entry.html
  rw [lastWrite_notes_html, entry_html] at h
  cases hd : doc (notesId verId idx) <;> rw [hd] at h <;> cases ht : htmlOf _ _ <;>
    rw [ht] at h <;> simp_all

theorem hasClass_applyResult_res (js : Builtins) (me : Identity) (taskId verId idx : String) (res : Result)
    (doc : Document) :
    hasClass (applyResult js me taskId verId idx res doc) (resId verId idx) "res-caution" =
      if (doc (resId verId idx)).isSome then
        some (decide (countOr0 res.downvotes > countOr0 res.upvotes))
      else none := by
  have h := entry_applyResult js me taskId verId idx res doc (resId verId idx)
    (Entry.cls "res-caution")
  rw [lastWrite_res_caution, entry_cls] at h
  unfold cautioned at h
  cases hd : doc (resId verId idx) <;> rw [hd] at h <;> cases ht : hasClass _ _ _ <;>
    rw [ht] at h <;> simp_all

theorem hasClass_applyResult_btnUp (js : Builtins) (me : Identity) (taskId verId idx : String)
    (res : Result) (doc : Document) (hkey : me.userSanitizedKey ∉ objectPrototypeNames)
    (hup : (doc (btnUpId verId idx)).isSome = true)
    (hdown : (doc (btnDownId verId idx)).isSome = true) :
    hasClass (applyResult js me taskId verId idx res doc) (btnUpId verId idx) "vote-active-up" =
      some (decide ((res.voters.getD []).lookup me.userSanitizedKey = some "up")) := by
  have hp : (present doc (btnUpId verId idx) && present doc (btnDownId verId idx)) = true := by
    simp [present, hup, hdown]
  have h := entry_applyResult js me taskId verId idx res doc (btnUpId verId idx)
    (Entry.cls "vote-active-up")
  rw [lastWrite_btn_up _ _ _ _ _ _ _ hp, entry_cls] at h
  cases hd : doc (btnUpId verId idx) with
  | none => rw [hd] at hup; cases hup
  | some e =>
    rw [hd] at h
    cases ht : hasClass (applyResult js me taskId verId idx res doc) (btnUpId verId idx)
        "vote-active-up" with
    | none => rw [ht] at h; cases h
    | some b =>
      rw [ht] at h
      simp only [Option.map_some', Option.some.injEq, Val.flag.injEq] at h
      rw [h]
      congr 1
      exact decide_eq_decide.2 (up_vote_iff me res hkey)

theorem hasClass_applyResult_btnDown (js : Builtins) (me : Identity)
    (taskId verId idx : String) (res : Result) (doc : Document)
    (hvals : ∀ kv ∈ res.voters.getD [], kv.2 = "up" ∨ kv.2 = "down")
    (hkey : me.userSanitizedKey ∉ objectPrototypeNames)
    (hup : (doc (btnUpId verId idx)).isSome = true)
    (hdown : (doc (btnDownId verId idx)).isSome = true) :
    hasClass (applyResult js me taskId verId idx res doc) (btnDownId verId idx)
        "vote-active-down" =
      some (decide ((res.voters.getD []).lookup me.userSanitizedKey = some "down")) := by
  have hp : (present doc (btnUpId verId idx) && present doc (btnDownId verId idx)) = true := by
    simp [present, hup, hdown]
  have h := entry_applyResult js me taskId verId idx res doc (btnDownId verId idx)
    (Entry.cls "vote-active-down")
  rw [lastWrite_btn_down _ _ _ _ _ _ _ hp, entry_cls] at h
  have hiff := down_vote_iff me res hvals hkey
  cases hd : doc (btnDownId verId idx) with
  | none => rw [hd] at hdown; cases hdown
  | some e =>
    rw [hd] at h
    cases ht : hasClass (applyResult js me taskId verId idx res doc) (btnDownId verId idx)
        "vote-active-down" with
    | none => rw [ht] at h; cases h
    | some b =>
      rw [ht] at h
      simp only [Option.map_some', Option.some.injEq, Val.flag.injEq] at h
      rw [h]
      congr 1
      cases hb : (myVote me res).addsDown
      · exact (decide_eq_false (fun hc => by rw [hiff.2 hc] at hb; cases hb)).symm
      · exact (decide_eq_true (hiff.1 hb)).symm

/-! ## Results of a snapshot without `null` versions -/

theorem reachedVersions_eq (versions : List (String × Option Version))
    (hnn : ∀ entry ∈ versions, entry.2 ≠ none) :
    reachedVersions versions = snapshotResults (some versions) := by
  induction versions with
  | nil => rfl
  | cons entry rest ih =>
    obtain ⟨verId, v⟩ := entry
    cases v with
    | none => exact absurd rfl (hnn (verId, none) (List.mem_cons_self _ _))
    | some verData =>
      show versionResults verId _ ++ reachedVersions rest = _
      rw [ih (fun e he => hnn e (List.mem_cons_of_mem _ he))]
      simp [snapshotResults]

/-- Without a `null` version the handler reaches every non-null result of the snapshot. -/
theorem reachedResults_eq (snapshot : Snapshot)
    (hnn : ∀ entry ∈ snapshot.getD [], entry.2 ≠ none) :
    reachedResults snapshot = snapshotResults snapshot := by
  cases snapshot with
  | none => rfl
  | some versions => exact reachedVersions_eq versions hnn

/-- On a snapshot without `null` versions the callback leaves in every entry of a result's
targets what the per-result body leaves there, provided no other result of the snapshot has
the same target key. -/
theorem onValue_entry_of_result (js : Builtins) (me : Identity) (taskId : String)
    (snapshot : Snapshot) (doc : Document) (verId idx : String) (res : Result)
    (hnn : ∀ entry ∈ snapshot.getD [], entry.2 ≠ none)
    (hmem : (verId, idx, res) ∈ snapshotResults snapshot)
    (huniq : ∀ r ∈ snapshotResults snapshot,
      targetKey (r.1, r.2.1) = targetKey (verId, idx) → r = (verId, idx, res))
    (t : String) (o : Entry) (hx : (t, o) ∈ resultTargets (present doc) verId idx) :
    (onValue js me taskId snapshot doc).doc.entry t o =
      (applyResult js me taskId verId idx res doc).entry t o := by
  rw [← reachedResults_eq snapshot hnn] at hmem huniq
  exact onValue_entry_of_reached js me taskId snapshot doc verId idx res hmem huniq t o hx

/-- C6 (as amended): for a snapshot with no `null` version entry, a non-null result of it
whose `voters` values are `up` or `down` and whose target key `{verId}-{idx}` no other
non-null result of the snapshot shares, and a current user key `k` that names no property
inherited from `Object.prototype`: when both vote buttons of `(verId, idx)` exist, whatever
their classes before, after the value handler has run the up button has `vote-active-up` iff
`voters[k] = "up"` and the down button has `vote-active-down` iff `voters[k] = "down"`; when
`k` is not in `voters` neither highlight is active, and the two are never both active. -/
theorem vote_highlight_correct (js : Builtins) (me : Identity) (taskId : String)
    (snapshot : Snapshot) (doc : Document) (verId idx : String) (res : Result)
    (hnn : ∀ entry ∈ snapshot.getD [], entry.2 ≠ none)
    (hmem : (verId, idx, res) ∈ snapshotResults snapshot)
    (huniq : ∀ r ∈ snapshotResults snapshot,
      targetKey (r.1, r.2.1) = targetKey (verId, idx) → r = (verId, idx, res))
    (hvals : ∀ kv ∈ res.voters.getD [], kv.2 = "up" ∨ kv.2 = "down")
    (hkey : me.userSanitizedKey ∉ objectPrototypeNames)
    (hup : (doc (btnUpId verId idx)).isSome = true)
    (hdown : (doc (btnDownId verId idx)).isSome = true) :
    (hasClass (onValue js me taskId snapshot doc).doc (btnUpId verId idx) "vote-active-up" =
        some (decide ((res.voters.getD []).lookup me.userSanitizedKey = some "up")) ∧
      hasClass (onValue js me taskId snapshot doc).doc (btnDownId verId idx)
          "vote-active-down" =
        some (decide ((res.voters.getD []).lookup me.userSanitizedKey = some "down"))) ∧
    ((res.voters.getD []).lookup me.userSanitizedKey = none →
      hasClass (onValue js me taskId snapshot doc).doc (btnUpId verId idx) "vote-active-up" =
        some false ∧
      hasClass (onValue js me taskId snapshot doc).doc (btnDownId verId idx)
          "vote-active-down" = some false) ∧
    ¬ (hasClass (onValue js me taskId snapshot doc).doc (btnUpId verId idx) "vote-active-up" =
        some true ∧
      hasClass (onValue js me taskId snapshot doc).doc (btnDownId verId idx)
          "vote-active-down" = some true) := by
  have hp : (present doc (btnUpId verId idx) && present doc (btnDownId verId idx)) = true := by
    simp [present, hup, hdown]
  have hu : hasClass (onValue js me taskId snapshot doc).doc (btnUpId verId idx)
      "vote-active-up" =
      some (decide ((res.voters.getD []).lookup me.userSanitizedKey = some "up")) := by
    rw [← hasClass_applyResult_btnUp js me taskId verId idx res doc hkey hup hdown]
    exact hasClass_eq_of_entry (onValue_entry_of_result js me taskId snapshot doc verId idx res
      hnn hmem huniq _ _ (mem_resultTargets_btnUp _ verId idx hp))
  have hd : hasClass (onValue js me taskId snapshot doc).doc (btnDownId verId idx)
      "vote-active-down" =
      some (decide ((res.voters.getD []).lookup me.userSanitizedKey = some "down")) := by
    rw [← hasClass_applyResult_btnDown js me taskId verId idx res doc hvals hkey hup hdown]
    exact hasClass_eq_of_entry (onValue_entry_of_result js me taskId snapshot doc verId idx res
      hnn hmem huniq _ _ (mem_resultTargets_btnDown _ verId idx hp))
  refine ⟨⟨hu, hd⟩, ?_, ?_⟩
  · intro hnone
    rw [hu, hd, hnone]
    exact ⟨rfl, rfl⟩
  · rw [hu, hd]
    rintro ⟨h₁, h₂⟩
    have h₁' := of_decide_eq_true (Option.some.inj h₁)
    have h₂' := of_decide_eq_true (Option.some.inj h₂)
    rw [h₁'] at h₂'
    exact absurd h₂' (by decide)

/-- Witness for C6 (as amended): the scenario snapshot, whose one result the current user
voted `up`, on the scenario document: the up highlight is set and the down highlight is
not. -/
theorem vote_highlight_correct_witness :
    hasClass (onValue asciiBuiltins scenarioIdentity "t1" scenarioSnapshot scenarioDocument).doc
        (btnUpId "v1" "0") "vote-active-up" =
      some (decide ((scenarioResult.voters.getD []).lookup scenarioIdentity.userSanitizedKey =
        some "up")) ∧
    hasClass (onValue asciiBuiltins scenarioIdentity "t1" scenarioSnapshot scenarioDocument).doc
        (btnDownId "v1" "0") "vote-active-down" =
      some (decide ((scenarioResult.voters.getD []).lookup scenarioIdentity.userSanitizedKey =
        some "down")) :=
  (vote_highlight_correct asciiBuiltins scenarioIdentity "t1" scenarioSnapshot scenarioDocument
    "v1" "0" scenarioResult (by decide) (by decide) (by decide) (by decide) (by decide)
    (by decide) (by decide)).1

/-- Counterexample to C6 as stated, at three inputs.  With the key `constructor` and
`voters = {}` the key is not in `voters`, yet `voters[k]` reads the inherited `constructor`
and the down highlight is set.  In a snapshot whose results `("v1", "0-1")` and
`("v1-0", "1")` share the buttons `…-v1-0-1`, the first result has `voters[u1] = "up"`, yet
after the handler the up button is not highlighted and the down button is.  And a result
that follows a `null` version is never applied: its up button stays as it was. -/
theorem vote_highlight_not_always :
    (("v1", "0", noVotersResult) ∈ snapshotResults noVotersSnapshot ∧
      (noVotersResult.voters.getD []).lookup inheritedKeyIdentity.userSanitizedKey = none ∧
      hasClass (onValue asciiBuiltins inheritedKeyIdentity "t1" noVotersSnapshot
        scenarioDocument).doc (btnDownId "v1" "0") "vote-active-down" = some true) ∧
    (("v1", "0-1", firstSharedResult) ∈ snapshotResults sharedTargetSnapshot ∧
      (firstSharedResult.voters.getD []).lookup scenarioIdentity.userSanitizedKey = some "up" ∧
      hasClass (onValue asciiBuiltins scenarioIdentity "t1" sharedTargetSnapshot
        sharedTargetDocument).doc (btnUpId "v1" "0-1") "vote-active-up" = some false ∧
      hasClass (onValue asciiBuiltins scenarioIdentity "t1" sharedTargetSnapshot
        sharedTargetDocument).doc (btnDownId "v1" "0-1") "vote-active-down" = some true) ∧
    (("v1", "0", scenarioResult) ∈ snapshotResults (nullFirstSnapshot scenarioResult) ∧
      (scenarioResult.voters.getD []).lookup scenarioIdentity.userSanitizedKey = some "up" ∧
      hasClass (onValue asciiBuiltins scenarioIdentity "t1" (nullFirstSnapshot scenarioResult)
        scenarioDocument).doc (btnUpId "v1" "0") "vote-active-up" = some false) := by
  refine ⟨⟨by decide, by decide, by decide⟩, ⟨by decide, by decide, by decide, by decide⟩,
    ⟨by decide, by decide, by decide⟩⟩

/-- C7 (as amended): for a snapshot with no `null` version entry and a non-null result of it
whose target key `{verId}-{idx}` no other non-null result of the snapshot shares: when the
`res-` container of `(verId, idx)` exists, whatever its classes before, after the value
handler has run the container has `res-caution` iff `downvotes > upvotes`, an absent count
being 0. -/
theorem caution_flag_correct (js : Builtins) (me : Identity) (taskId : String)
    (snapshot : Snapshot) (doc : Document) (verId idx : String) (res : Result)
    (hnn : ∀ entry ∈ snapshot.getD [], entry.2 ≠ none)
    (hmem : (verId, idx, res) ∈ snapshotResults snapshot)
    (huniq : ∀ r ∈ snapshotResults snapshot,
      targetKey (r.1, r.2.1) = targetKey (verId, idx) → r = (verId, idx, res))
    (hres : (doc (resId verId idx)).isSome = true) :
    hasClass (onValue js me taskId snapshot doc).doc (resId verId idx) "res-caution" =
      some (decide (countOr0 res.downvotes > countOr0 res.upvotes)) := by
  have hc := hasClass_applyResult_res js me taskId verId idx res doc
  rw [if_pos hres] at hc
  rw [← hc]
  exact hasClass_eq_of_entry (onValue_entry_of_result js me taskId snapshot doc verId idx res
    hnn hmem huniq _ _ (mem_resultTargets_res _ verId idx))

/-- Witness for C7 (as amended): the two boundary cases of the specification, 3 up and 3
down (no caution) and 2 up and 3 down (caution), each as the one result of a snapshot. -/
theorem caution_flag_correct_witness :
    hasClass (onValue asciiBuiltins scenarioIdentity "t1"
        (some [("v1", some ⟨some [("0", some (votesResult 3 3))]⟩)]) scenarioDocument).doc
      (resId "v1" "0") "res-caution" =
        some (decide (countOr0 (votesResult 3 3).downvotes > countOr0 (votesResult 3 3).upvotes)) ∧
    hasClass (onValue asciiBuiltins scenarioIdentity "t1"
        (some [("v1", some ⟨some [("0", some (votesResult 2 3))]⟩)]) scenarioDocument).doc
      (resId "v1" "0") "res-caution" =
        some (decide (countOr0 (votesResult 2 3).downvotes > countOr0 (votesResult 2 3).upvotes)) :=
  ⟨caution_flag_correct asciiBuiltins scenarioIdentity "t1"
      (some [("v1", some ⟨some [("0", some (votesResult 3 3))]⟩)]) scenarioDocument "v1" "0"
      (votesResult 3 3) (by decide) (by decide) (by decide) (by decide),
   caution_flag_correct asciiBuiltins scenarioIdentity "t1"
      (some [("v1", some ⟨some [("0", some (votesResult 2 3))]⟩)]) scenarioDocument "v1" "0"
      (votesResult 2 3) (by decide) (by decide) (by decide) (by decide)⟩

/-- Counterexample to C7 as stated, at two inputs.  In a snapshot whose results
`("v1", "0-1")` and `("v1-0", "1")` share the container `res-v1-0-1`, the first result has
5 downvotes and 1 upvote, yet after the handler the container has no `res-caution`: the
second result, with 0 and 7, wrote it last.  And a result with 3 downvotes and 2 upvotes
that follows a `null` version is never applied: its container stays without the class. -/
theorem caution_flag_not_always :
    (("v1", "0-1", firstSharedResult) ∈ snapshotResults sharedTargetSnapshot ∧
      countOr0 firstSharedResult.downvotes > countOr0 firstSharedResult.upvotes ∧
      hasClass (onValue asciiBuiltins scenarioIdentity "t1" sharedTargetSnapshot
        sharedTargetDocument).doc (resId "v1" "0-1") "res-caution" = some false) ∧
    (("v1", "0", votesResult 2 3) ∈ snapshotResults (nullFirstSnapshot (votesResult 2 3)) ∧
      countOr0 (votesResult 2 3).downvotes > countOr0 (votesResult 2 3).upvotes ∧
      hasClass (onValue asciiBuiltins scenarioIdentity "t1" (nullFirstSnapshot (votesResult 2 3))
        scenarioDocument).doc (resId "v1" "0") "res-caution" = some false) := by
  refine ⟨⟨by decide, by decide, by decide⟩, ⟨by decide, by decide, by decide⟩⟩

/-- C9 (as amended): for a snapshot with no `null` version entry and a non-null result of it
at `(verId, idx)` whose target key `{verId}-{idx}` no other non-null result of the snapshot
shares: after the value handler has run, the up-count target, if present, shows `upvotes`
and the down-count target, if present, shows `downvotes`, an absent field showing 0; an
absent target stays absent (no element is created), and the caution flag and the note list
of the result are written whether or not the count targets exist. -/
theorem vote_counts_correct (js : Builtins) (me : Identity) (taskId : String)
    (snapshot : Snapshot) (doc : Document) (verId idx : String) (res : Result)
    (hnn : ∀ entry ∈ snapshot.getD [], entry.2 ≠ none)
    (hmem : (verId, idx, res) ∈ snapshotResults snapshot)
    (huniq : ∀ r ∈ snapshotResults snapshot,
      targetKey (r.1, r.2.1) = targetKey (verId, idx) → r = (verId, idx, res)) :
    (textOf (onValue js me taskId snapshot doc).doc (upId verId idx) =
        (if (doc (upId verId idx)).isSome then some (toString (countOr0 res.upvotes))
         else none) ∧
      textOf (onValue js me taskId snapshot doc).doc (downId verId idx) =
        (if (doc (downId verId idx)).isSome then some (toString (countOr0 res.downvotes))
         else none)) ∧
    (∀ t, ((onValue js me taskId snapshot doc).doc t).isSome = (doc t).isSome) ∧
    (hasClass (onValue js me taskId snapshot doc).doc (resId verId idx) "res-caution" =
        (if (doc (resId verId idx)).isSome then
          some (decide (countOr0 res.downvotes > countOr0 res.upvotes)) else none) ∧
      htmlOf (onValue js me taskId snapshot doc).doc (notesId verId idx) =
        (if (doc (notesId verId idx)).isSome then some (notesHtml js me taskId verId idx res)
         else none)) := by
  refine ⟨⟨?_, ?_⟩, ?_, ⟨?_, ?_⟩⟩
  · rw [← textOf_applyResult_up js me taskId verId idx res doc]
    exact textOf_eq_of_entry (onValue_entry_of_result js me taskId snapshot doc verId idx res
      hnn hmem huniq _ _ (mem_resultTargets_up _ verId idx))
  · rw [← textOf_applyResult_down js me taskId verId idx res doc]
    exact textOf_eq_of_entry (onValue_entry_of_result js me taskId snapshot doc verId idx res
      hnn hmem huniq _ _ (mem_resultTargets_down _ verId idx))
  · intro t
    exact congrFun (present_onValue js me taskId snapshot doc) t
  · rw [← hasClass_applyResult_res js me taskId verId idx res doc]
    exact hasClass_eq_of_entry (onValue_entry_of_result js me taskId snapshot doc verId idx res
      hnn hmem huniq _ _ (mem_resultTargets_res _ verId idx))
  · rw [← htmlOf_applyResult_notes js me taskId verId idx res doc]
    exact htmlOf_eq_of_entry (onValue_entry_of_result js me taskId snapshot doc verId idx res
      hnn hmem huniq _ _ (mem_resultTargets_notes _ verId idx))

/-- Witness for C9 (as amended): the scenario snapshot on the scenario document shows 5 in
the up-count and 2 in the down-count. -/
theorem vote_counts_correct_witness :
    textOf (onValue asciiBuiltins scenarioIdentity "t1" scenarioSnapshot scenarioDocument).doc
        "up-v1-0" = some "5" ∧
    textOf (onValue asciiBuiltins scenarioIdentity "t1" scenarioSnapshot scenarioDocument).doc
        "down-v1-0" = some "2" :=
  (vote_counts_correct asciiBuiltins scenarioIdentity "t1" scenarioSnapshot scenarioDocument
    "v1" "0" scenarioResult (by decide) (by decide) (by decide)).1

/-- Counterexample to C9 as stated, at two inputs.  In a snapshot whose results
`("v1", "0-1")` and `("v1-0", "1")` share the count target `up-v1-0-1`, the first result has
1 upvote, yet after the handler the target shows the 7 of the second.  And a result with 5
upvotes that follows a `null` version is never applied: its up-count stays empty. -/
theorem vote_counts_not_always :
    (("v1", "0-1", firstSharedResult) ∈ snapshotResults sharedTargetSnapshot ∧
      countOr0 firstSharedResult.upvotes = 1 ∧
      textOf (onValue asciiBuiltins scenarioIdentity "t1" sharedTargetSnapshot
        sharedTargetDocument).doc (upId "v1" "0-1") = some "7") ∧
    (("v1", "0", scenarioResult) ∈ snapshotResults (nullFirstSnapshot scenarioResult) ∧
      countOr0 scenarioResult.upvotes = 5 ∧
      textOf (onValue asciiBuiltins scenarioIdentity "t1" (nullFirstSnapshot scenarioResult)
        scenarioDocument).doc (upId "v1" "0") = some "") := by
  refine ⟨⟨by decide, by decide, by decide⟩, ⟨by decide, by decide, by decide⟩⟩

/-- Counterexample to C5 as stated: two tasks whose snapshots both hold result `0` of a
version `v1` store into the same up-count target, so the handler of `tA` changes an entry the
handler of `tB` writes and the order of the two runs shows. -/
theorem onValue_tasks_not_independent :
    textOf (onValue asciiBuiltins scenarioIdentity "tB" (countSnapshot "v1" "0" 2)
        (onValue asciiBuiltins scenarioIdentity "tA" (countSnapshot "v1" "0" 1) scenarioDocument).doc).doc
      "up-v1-0" = some "2" ∧
    textOf (onValue asciiBuiltins scenarioIdentity "tA" (countSnapshot "v1" "0" 1)
        (onValue asciiBuiltins scenarioIdentity "tB" (countSnapshot "v1" "0" 2) scenarioDocument).doc).doc
      "up-v1-0" = some "1" ∧
    (onValue asciiBuiltins scenarioIdentity "tB" (countSnapshot "v1" "0" 2)
        (onValue asciiBuiltins scenarioIdentity "tA" (countSnapshot "v1" "0" 1) scenarioDocument).doc).doc ≠
      (onValue asciiBuiltins scenarioIdentity "tA" (countSnapshot "v1" "0" 1)
        (onValue asciiBuiltins scenarioIdentity "tB" (countSnapshot "v1" "0" 2) scenarioDocument).doc).doc := by
  refine ⟨by decide, by decide, ?_⟩
  intro h
  have h' := congrArg (fun d : Document => textOf d "up-v1-0") h
  revert h'
  decide

/-- Witness for C5 (as amended): task `tA` holding version `v1` and task `tB` holding
version `v2`. -/
theorem onValue_tasks_commute_witness :
    (onValue asciiBuiltins scenarioIdentity "tB" (countSnapshot "v2" "0" 2)
        (onValue asciiBuiltins scenarioIdentity "tA" (countSnapshot "v1" "0" 1) scenarioDocument).doc).doc =
      (onValue asciiBuiltins scenarioIdentity "tA" (countSnapshot "v1" "0" 1)
        (onValue asciiBuiltins scenarioIdentity "tB" (countSnapshot "v2" "0" 2) scenarioDocument).doc).doc :=
  (onValue_tasks_commute asciiBuiltins scenarioIdentity "tA" "tB" (countSnapshot "v1" "0" 1)
    (countSnapshot "v2" "0" 2) scenarioDocument (by decide)).2

/-! ## Null entries -/

/-- C3 (the handler's behaviour at the failing input): a snapshot with a `null` version
entry makes the value handler raise at `verData.rating_results`; the versions after it are
never applied, here the scenario version whose up-count stays empty. -/
theorem onValue_null_version_raises :
    (∀ (js : Builtins) (me : Identity) (taskId verId : String) (rest : List (String × Option Version))
        (doc : Document),
      onValue js me taskId (some ((verId, none) :: rest)) doc = ⟨doc, some JsError.typeError⟩) ∧
    (onValue asciiBuiltins scenarioIdentity "t1"
      (some [("v0", none), ("v1", some ⟨some [("0", some scenarioResult)]⟩)])
      scenarioDocument).raised = some JsError.typeError ∧
    textOf (onValue asciiBuiltins scenarioIdentity "t1"
      (some [("v0", none), ("v1", some ⟨some [("0", some scenarioResult)]⟩)])
      scenarioDocument).doc "up-v1-0" = some "" :=
  ⟨fun _ _ _ _ _ _ => rfl, rfl, by decide⟩

/-- The handler raises exactly when it meets a `null` version entry: `null` results and
`null` notes never make it raise. -/
theorem onValue_raised_iff (js : Builtins) (me : Identity) (taskId : String)
    (versions : List (String × Option Version)) (doc : Document) :
    (onValue js me taskId (some versions) doc).raised = some JsError.typeError ↔
      ∃ entry ∈ versions, entry.2 = none := by
  show (forEachVersion js me taskId versions doc).raised = some JsError.typeError ↔ _
  induction versions generalizing doc with
  | nil => simp [forEachVersion]
  | cons entry rest ih =>
    obtain ⟨verId, v⟩ := entry
    cases v with
    | none => simp [forEachVersion]
    | some verData =>
      show (forEachVersion js me taskId rest _).raised = some JsError.typeError ↔ _
      rw [ih]
      simp

/-! ## Note ownership -/

theorem isMe_iff (js : Builtins) (me : Identity) (note : Note) :
    isMe js me note = true ↔ js.toLowerCase (safeUserOf note) = me.currentUserEmail := by
  simp [isMe]

theorem getLast_data_append (s t : String) (c : Char) (h : t.data.getLast? = some c) :
    (s ++ t).data.getLast? = some c := by
  rw [String.data_append, List.getLast?_append, h]
  rfl

/-- An item whose delete hole is empty does not end with a delete span and the closing tag:
before the closing tag it ends with the blank of the indentation. -/
theorem noteItemTemplate_empty_ne (username text pre taskId verId idx nid : String) :
    noteItemTemplate username text "" ≠ pre ++ delNoteBtn taskId verId idx nid ++ itemClose := by
  intro h
  have hd := congrArg String.data h
  unfold noteItemTemplate at hd
  rw [String.data_append, String.data_append _ itemClose] at hd
  have h₂ := congrArg List.getLast? (List.append_cancel_right hd)
  rw [String.append_empty,
    getLast_data_append _ "\n                                        " ' ' (by decide)] at h₂
  unfold delNoteBtn at h₂
  rw [← String.append_assoc, getLast_data_append _ _ '>' (by decide)] at h₂
  exact absurd h₂ (by decide)

/-- C4 (as amended): for a current user email `E` that is already in lower case (the handler
lower-cases the note's user only, never `E`), a non-null note with user `U` is marked as the
current user's own iff `U` and `E` are equal when compared case-insensitively, an absent
user being compared as `unknown@user`; and the item rendered for the note ends with the
`del-note-btn` span followed by the item's closing tag iff the note is the user's own. -/
theorem note_ownership (js : Builtins) (me : Identity) (taskId verId idx nid : String)
    (note : Note) (hE : js.toLowerCase me.currentUserEmail = me.currentUserEmail) :
    (isMe js me note = true ↔
      js.toLowerCase (safeUserOf note) = js.toLowerCase me.currentUserEmail) ∧
    (note.user = none → safeUserOf note = "unknown@user") ∧
    (∀ u, note.user = some u → u ≠ "" → safeUserOf note = u) ∧
    ((∃ pre, noteItem js me taskId verId idx nid note =
        pre ++ delNoteBtn taskId verId idx nid ++ itemClose) ↔
      js.toLowerCase (safeUserOf note) = js.toLowerCase me.currentUserEmail) := by
  refine ⟨?_, ?_, ?_, ?_⟩
  · rw [hE]; exact isMe_iff js me note
  · intro h; simp [safeUserOf, orDefault, h]
  · intro u h hu; simp [safeUserOf, orDefault, h, truthyStr, hu]
  · rw [hE, ← isMe_iff]
    unfold noteItem
    cases hm : isMe js me note
    · simp only [Bool.false_eq_true, if_false, iff_false, not_exists]
      intro pre
      exact noteItemTemplate_empty_ne _ _ pre taskId verId idx nid
    · simp only [if_true, iff_true]
      exact ⟨_, rfl⟩

/-- Witness for C4 (as amended): the scenario user and a note written as `A@X.com`. -/
theorem note_ownership_witness :
    (isMe asciiBuiltins scenarioIdentity ⟨some "A@X.com", NoteText.str "hi"⟩ = true ↔
      asciiBuiltins.toLowerCase (safeUserOf ⟨some "A@X.com", NoteText.str "hi"⟩) =
        asciiBuiltins.toLowerCase scenarioIdentity.currentUserEmail) :=
  (note_ownership asciiBuiltins scenarioIdentity "t1" "v1" "0" "n1"
    ⟨some "A@X.com", NoteText.str "hi"⟩ (by decide)).1

/-- Counterexample to C4 as stated, at two inputs.  With the current user email `A@x.com`, a
note by `A@x.com` is equal to it case-insensitively, and even exactly, yet it is not marked
as the user's own and its item has an empty delete hole.  And with the scenario user, a note
by `b@x.com` is not the user's own, yet its item carries a `del-note-btn` span: the one its
text consists of, which the template prints as it is in its text hole. -/
theorem isMe_not_case_insensitive :
    (asciiBuiltins.toLowerCase (safeUserOf ⟨some "A@x.com", NoteText.str "hi"⟩) =
        asciiBuiltins.toLowerCase "A@x.com" ∧
      isMe asciiBuiltins ⟨"A@x.com", "u1"⟩ ⟨some "A@x.com", NoteText.str "hi"⟩ = false ∧
      noteItem asciiBuiltins ⟨"A@x.com", "u1"⟩ "t1" "v1" "0" "n1"
          ⟨some "A@x.com", NoteText.str "hi"⟩ =
        noteItemTemplate "A" "hi" "") ∧
    (isMe asciiBuiltins scenarioIdentity
        ⟨some "b@x.com", NoteText.str (delNoteBtn "t1" "v1" "0" "n1")⟩ = false ∧
      noteItem asciiBuiltins scenarioIdentity "t1" "v1" "0" "n1"
          ⟨some "b@x.com", NoteText.str (delNoteBtn "t1" "v1" "0" "n1")⟩ =
        noteItemTemplate "b" (delNoteBtn "t1" "v1" "0" "n1") "") := by
  refine ⟨⟨by decide, by decide, rfl⟩, ⟨by decide, rfl⟩⟩

/-! ## Null notes and null results are skipped -/

theorem foldl_append_eq (l : List String) (acc : String) :
    l.foldl (fun r s => r ++ s) acc = acc ++ l.foldl (fun r s => r ++ s) "" := by
  induction l generalizing acc with
  | nil => simp
  | cons x xs ih =>
    rw [List.foldl_cons, List.foldl_cons, ih, ih ("" ++ x), String.empty_append,
      String.append_assoc]

theorem notesLoop_eq (js : Builtins) (me : Identity) (taskId verId idx : String)
    (notes : List (String × Option Note)) (acc : String) :
    notesLoop js me taskId verId idx notes acc =
      acc ++ String.join
        (notes.filterMap (fun entry => entry.2.map (noteItem js me taskId verId idx entry.1))) := by
  induction notes generalizing acc with
  | nil => simp [notesLoop, String.join]
  | cons entry rest ih =>
    obtain ⟨nid, n⟩ := entry
    cases n with
    | none =>
      show notesLoop js me taskId verId idx rest acc = _
      rw [ih]
      simp
    | some note =>
      show notesLoop js me taskId verId idx rest (acc ++ noteItem js me taskId verId idx nid note) = _
      rw [ih]
      simp only [List.filterMap_cons, Option.map_some']
      unfold String.join
      rw [List.foldl_cons, foldl_append_eq _ ("" ++ _), String.empty_append,
        String.append_assoc]

theorem notesHtml_eq_join (js : Builtins) (me : Identity) (taskId verId idx : String) (res : Result) :
    notesHtml js me taskId verId idx res = String.join (noteItems js me taskId verId idx res) := by
  unfold notesHtml noteItems
  cases res.notes with
  | none => rfl
  | some notes =>
    show notesLoop js me taskId verId idx notes "" = _
    rw [notesLoop_eq, String.empty_append]
    rfl

theorem noteItems_stripResult (js : Builtins) (me : Identity) (taskId verId idx : String) (res : Result) :
    noteItems js me taskId verId idx (stripResult res) = noteItems js me taskId verId idx res := by
  unfold noteItems stripResult
  cases res.notes with
  | none => rfl
  | some notes =>
    show (stripNotes notes).filterMap _ = notes.filterMap _
    unfold stripNotes
    induction notes with
    | nil => rfl
    | cons entry rest ih =>
      obtain ⟨nid, n⟩ := entry
      cases n with
      | none => simpa using ih
      | some note => simpa using ih

theorem applyResult_stripResult (js : Builtins) (me : Identity) (taskId verId idx : String) (res : Result)
    (doc : Document) :
    applyResult js me taskId verId idx (stripResult res) doc =
      applyResult js me taskId verId idx res doc := by
  have h : notesHtml js me taskId verId idx (stripResult res) = notesHtml js me taskId verId idx res := by
    rw [notesHtml_eq_join, notesHtml_eq_join, noteItems_stripResult]
  unfold applyResult
  rw [h]
  rfl

theorem forEachResult_stripResults (js : Builtins) (me : Identity) (taskId verId : String)
    (resultsObj : List (String × Option Result)) (doc : Document) :
    forEachResult js me taskId verId (stripResults resultsObj) doc =
      forEachResult js me taskId verId resultsObj doc := by
  induction resultsObj generalizing doc with
  | nil => rfl
  | cons entry rest ih =>
    obtain ⟨idx, r⟩ := entry
    cases r with
    | none => exact ih doc
    | some res =>
      show forEachResult js me taskId verId (stripResults rest)
        (applyResult js me taskId verId idx (stripResult res) doc) = _
      rw [ih, applyResult_stripResult]
      rfl

theorem forEachVersion_strip (js : Builtins) (me : Identity) (taskId : String)
    (versions : List (String × Option Version)) (doc : Document) :
    forEachVersion js me taskId
        (versions.map (fun entry => (entry.1, entry.2.map stripVersion))) doc =
      forEachVersion js me taskId versions doc := by
  induction versions generalizing doc with
  | nil => rfl
  | cons entry rest ih =>
    obtain ⟨verId, v⟩ := entry
    cases v with
    | none => rfl
    | some verData =>
      show forEachVersion js me taskId _
        (forEachResult js me taskId verId ((stripVersion verData).rating_results.getD []) doc) = _
      rw [ih]
      have h : forEachResult js me taskId verId ((stripVersion verData).rating_results.getD []) doc =
          forEachResult js me taskId verId (verData.rating_results.getD []) doc := by
        unfold stripVersion
        cases verData.rating_results with
        | none => rfl
        | some rs => exact forEachResult_stripResults js me taskId verId rs doc
      rw [h]
      rfl

/-- C8: the value handler leaves the same view state, and ends the same way, on a snapshot
and on that snapshot with every `null` note entry and every `null` result entry removed; the
notes HTML written for a result is the concatenation, in entry order, of the items of its
non-null notes; and a `null` result entry among the results of a version changes nothing
for its siblings. -/
theorem onValue_skips_nulls (js : Builtins) (me : Identity) (taskId : String) :
    (∀ (snapshot : Snapshot) (doc : Document),
      onValue js me taskId (stripNulls snapshot) doc = onValue js me taskId snapshot doc) ∧
    (∀ (verId idx : String) (res : Result),
      notesHtml js me taskId verId idx res = String.join (noteItems js me taskId verId idx res)) ∧
    (∀ (verId idx : String) (before after : List (String × Option Result)) (doc : Document),
      forEachResult js me taskId verId (before ++ (idx, none) :: after) doc =
        forEachResult js me taskId verId (before ++ after) doc) := by
  refine ⟨?_, ?_, ?_⟩
  · intro snapshot doc
    cases snapshot with
    | none => rfl
    | some versions => exact forEachVersion_strip js me taskId versions doc
  · intro verId idx res
    exact notesHtml_eq_join js me taskId verId idx res
  · intro verId idx before after doc
    simp [forEachResult, List.foldl_append]

/-! ## `saveNote` -/

/-- C10: when the note field holds `s`, `saveNote` issues no request and leaves the page as
it is if `s` trimmed is empty; otherwise it issues exactly one `/add_note` request carrying
`s` as `note_text`, the call's arguments as `task_id`, `ver_id`, `idx` and the current
user's email, empties the field and leaves every other field alone. -/
theorem saveNote_guard (me : Identity) (t v i : JsArg) (page : Page) (s : String)
    (hinp : page.inputs (txtNoteId v i) = some s) :
    (trim s = "" → saveNote me t v i page = ⟨page, none⟩) ∧
    (trim s ≠ "" →
      (saveNote me t v i page).raised = none ∧
      (saveNote me t v i page).page.requests =
        page.requests ++
          [{ url := "/add_note", method := "POST",
             headers := [("Content-Type", "application/json")],
             body := [("task_id", t), ("ver_id", v), ("idx", i), ("note_text", JsArg.str s),
               ("user_email", JsArg.str me.currentUserEmail)] }] ∧
      (saveNote me t v i page).page.inputs (txtNoteId v i) = some "" ∧
      ∀ id, id ≠ txtNoteId v i → (saveNote me t v i page).page.inputs id = page.inputs id) := by
  constructor
  · intro h
    simp [saveNote, hinp, truthyStr, h]
  · intro h
    have ht : truthyStr (trim s) = true := by simp [truthyStr, h]
    have hs : saveNote me t v i page =
        ⟨⟨fun id => if id = txtNoteId v i then some "" else page.inputs id,
          page.requests ++ [addNoteRequest me t v i s]⟩, none⟩ := by
      simp only [saveNote, hinp, ht, if_true]
    rw [hs]
    refine ⟨rfl, rfl, if_pos rfl, ?_⟩
    intro id hid
    exact if_neg hid

/-- Witness for C10: a blank field, and a field holding ` hi `. -/
theorem saveNote_guard_witness :
    saveNote scenarioIdentity (JsArg.str "t1") (JsArg.str "v1") (JsArg.num 0) (notePage "  ") =
      ⟨notePage "  ", none⟩ ∧
    (saveNote scenarioIdentity (JsArg.str "t1") (JsArg.str "v1") (JsArg.num 0)
        (notePage " hi ")).page.requests =
      (notePage " hi ").requests ++
        [{ url := "/add_note", method := "POST",
           headers := [("Content-Type", "application/json")],
           body := [("task_id", JsArg.str "t1"), ("ver_id", JsArg.str "v1"),
             ("idx", JsArg.num 0), ("note_text", JsArg.str " hi "),
             ("user_email", JsArg.str scenarioIdentity.currentUserEmail)] }] :=
  ⟨(saveNote_guard scenarioIdentity (JsArg.str "t1") (JsArg.str "v1") (JsArg.num 0)
      (notePage "  ") "  " (by decide)).1 (by decide),
   ((saveNote_guard scenarioIdentity (JsArg.str "t1") (JsArg.str "v1") (JsArg.num 0)
      (notePage " hi ") " hi " (by decide)).2 (by decide)).2.1⟩

end RaterSaveAnswer
